import Mathlib

/-!
Verification of the Ouman EH-800 API client (Python repository
Markus98/ouman-eh-800-api) against its natural-language specification.

The repository's wire codec, endpoint model, registry iteration and the
session/protocol engine are shallowly embedded below.  Strings on the wire
are modelled as `List Char`; Python dicts as ordered association lists with
in-place update; Python `float` values as exact rationals; the HTTP
transport as a script of outcomes consumed one per request, together with a
log of the requests that were issued.
-/

set_option maxRecDepth 4000

namespace Ouman

/-- Whitespace characters stripped by Python's `str.strip()`, restricted to
the code-point range that can occur in this Latin-1 wire protocol. -/
def isPySpace (c : Char) : Bool :=
  c = ' ' || c = '\t' || c = '\n' || c = '\x0b' || c = '\x0c' || c = '\r'
    || c = '\x1c' || c = '\x1d' || c = '\x1e' || c = '\x1f'
    || c = '\x85' || c = '\xa0'

/-- Model of Python `str.strip()`: drop leading and trailing whitespace. -/
def pyStrip (s : List Char) : List Char :=
  ((s.dropWhile isPySpace).reverse.dropWhile isPySpace).reverse

/-- Model of Python `s.split(sep, maxsplit=1)` for a single-character
separator: `none` when the separator does not occur (in which case the
two-element tuple unpacking in the source raises `ValueError`). -/
def splitFirst (sep : Char) : List Char → Option (List Char × List Char)
  | [] => none
  | c :: rest =>
      if c = sep then some ([], rest)
      else (splitFirst sep rest).map (fun p => (c :: p.1, p.2))

/-- Model of Python `s.split(sep)` for a single-character separator:
`"".split(";") = [""]`, `";".split(";") = ["", ""]`, and so on. -/
def splitAll (sep : Char) : List Char → List (List Char)
  | [] => [[]]
  | c :: rest =>
      if c = sep then [] :: splitAll sep rest
      else
        match splitAll sep rest with
        | [] => [[c]]
        | h :: t => (c :: h) :: t

/-- Ordered-dict insertion as performed by Python `d[k] = v`: an existing
key keeps its position and gets the new value, a new key is appended. -/
def pyDictInsert {κ ν : Type} [DecidableEq κ] (k : κ) (v : ν) :
    List (κ × ν) → List (κ × ν)
  | [] => [(k, v)]
  | (k', v') :: rest =>
      if k' = k then (k', v) :: rest else (k', v') :: pyDictInsert k v rest

/-- Ordered-dict lookup, Python `d.get(k)`. -/
def dictLookup {κ ν : Type} [DecidableEq κ] (k : κ) :
    List (κ × ν) → Option ν
  | [] => none
  | (k', v) :: rest => if k' = k then some v else dictLookup k rest

/-- Decoded device response: the text before the first question mark and the
ordered key/value mapping decoded from the body (`prefix` is a reserved
word in Lean, hence the field name `pre`). -/
structure OumanResponse where
  pre : List Char
  values : List (List Char × List Char)
deriving DecidableEq, Repr

/-- One step of the decoding fold of `_parse_api_response` over a single
segment: split it on its first equals sign and assign, or skip a segment
without one (logged as a warning in the source). -/
def segStep (m : List (List Char × List Char)) (pair : List Char) :
    List (List Char × List Char) :=
  match splitFirst '=' pair with
  | some (k, v) => pyDictInsert (pyStrip k) (pyStrip v) m
  | none => m

/-- Body part of `OumanEh800Client._parse_api_response`: split the body on
semicolons, drop whitespace-only segments, drop a final NUL-only segment,
then fold the remaining segments into the ordered mapping. -/
def parseBody (body : List Char) : List (List Char × List Char) :=
  let pairs0 := (splitAll ';' body).filter (fun p => !(pyStrip p).isEmpty)
  let pairs := if pairs0.getLast? = some ['\x00'] then pairs0.dropLast else pairs0
  pairs.foldl segStep []

/-- Model of `OumanEh800Client._parse_api_response`.  `none` models the
uncaught `ValueError` raised by the tuple unpacking of
`response_text.split("?", maxsplit=1)` when the text has no question mark. -/
def parse_api_response (text : List Char) : Option OumanResponse :=
  match splitFirst '?' text with
  | none => none
  | some (p, body) => some ⟨p, parseBody body⟩

example : parse_api_response "login?result=ok;\x00".toList =
    some ⟨"login".toList, [("result".toList, "ok".toList)]⟩ := by decide

example : parse_api_response "request?a= 1 ;junk; b =2;\x00".toList =
    some ⟨"request".toList,
      [("a".toList, "1".toList), ("b".toList, "2".toList)]⟩ := by decide

example : parse_api_response "nodelimiter".toList = none := by decide

/-- An exact decimal number: the rational `mant / 10 ^ fracDigits`.  Python
floats are modelled as exact decimals (all numbers on this wire protocol
are short decimal literals, on which CPython's float arithmetic and its
`round`, `str` and `==` agree with exact decimal arithmetic). -/
structure Dec where
  mant : ℤ
  fracDigits : ℕ
deriving DecidableEq, Repr

/-- Rational value denoted by a `Dec`. -/
def Dec.toQ (a : Dec) : ℚ := (a.mant : ℚ) / 10 ^ a.fracDigits

/-- Numeric equality of two decimals (Python `==` on numbers), by cross
multiplication of the positive denominators. -/
def Dec.numEq (a b : Dec) : Bool :=
  a.mant * 10 ^ b.fracDigits = b.mant * 10 ^ a.fracDigits

/-- Numeric order on decimals (Python `<=` on numbers). -/
def Dec.numLe (a b : Dec) : Bool :=
  a.mant * 10 ^ b.fracDigits ≤ b.mant * 10 ^ a.fracDigits

/-- The decimal `n / 10`, e.g. the literal `-4.0` is `ofTenths (-40)`. -/
def Dec.ofTenths (n : ℤ) : Dec := ⟨n, 1⟩

/-- The integer decimal `n`. -/
def Dec.ofInt (n : ℤ) : Dec := ⟨n, 0⟩

/-- Nearest integer to `N / D` (for `D > 0`) with ties to even, the
rounding CPython's `round` applies. -/
def roundTiesEven (N D : ℤ) : ℤ :=
  let q := N.fdiv D
  let r := N - q * D
  if 2 * r < D then q
  else if 2 * r > D then q + 1
  else if q % 2 = 0 then q else q + 1

/-- Model of Python `round(value, 1)`: the nearest multiple of one tenth,
ties to even. -/
def pyRound1 (v : Dec) : Dec :=
  ⟨roundTiesEven (v.mant * 10) ((10 : ℤ) ^ v.fracDigits), 1⟩

/-- Decimal rendering of the non-negative value `m / 10`, one digit after
the point, as in Python `str()` of a one-decimal float. -/
def tenthReprNat (m : ℕ) : String := toString (m / 10) ++ "." ++ toString (m % 10)

/-- Model of Python `str(round(value, 1))`: render the integer `n` standing
for the rounded value `n / 10`. -/
def tenthRepr (n : ℤ) : String :=
  if n < 0 then "-" ++ tenthReprNat n.natAbs else tenthReprNat n.toNat

/-- Numeric value of a digit list, most significant first. -/
def digitsToNat (ds : List Char) : ℕ :=
  ds.foldl (fun a c => a * 10 + (c.toNat - 48)) 0

/-- Model of Python `float(s)` restricted to the finite plain-decimal forms
(optional surrounding whitespace, optional sign, digits with an optional
fractional part).  Exponent notation, underscores and the non-finite
literals `inf` and `nan` are treated as unparsable; none of them can occur
in this device's numeric fields nor compare equal to a one-decimal value. -/
def pyFloatParse (s : List Char) : Option Dec :=
  let cs := pyStrip s
  let signed : ℤ × List Char :=
    match cs with
    | '+' :: r => (1, r)
    | '-' :: r => (-1, r)
    | _ => (1, cs)
  match splitFirst '.' signed.2 with
  | none =>
      if !signed.2.isEmpty && signed.2.all Char.isDigit then
        some ⟨signed.1 * digitsToNat signed.2, 0⟩
      else none
  | some (ip, fp) =>
      if (!ip.isEmpty || !fp.isEmpty) && ip.all Char.isDigit
          && fp.all Char.isDigit then
        some ⟨signed.1 * (digitsToNat ip * 10 ^ fp.length + digitsToNat fp),
          fp.length⟩
      else none

example : pyFloatParse "1.6".toList = some ⟨16, 1⟩ := by decide
example : pyFloatParse "-13.3".toList = some ⟨-133, 1⟩ := by decide
example : pyFloatParse "50".toList = some ⟨50, 0⟩ := by decide
example : pyFloatParse "".toList = none := by decide
example : pyFloatParse "x1".toList = none := by decide
example : Dec.numEq ⟨50, 0⟩ ⟨500, 1⟩ = true := by decide
example : pyRound1 ⟨155, 2⟩ = ⟨16, 1⟩ := by decide
example : pyRound1 ⟨125, 2⟩ = ⟨12, 1⟩ := by decide
example : pyRound1 ⟨-25, 2⟩ = ⟨-2, 1⟩ := by decide
example : tenthRepr 16 = "1.6" := by decide
example : tenthRepr (-5) = "-0.5" := by decide

/-- Physical unit tags used by the endpoint declarations (the `OumanUnit`
enumeration is declared in a module of this repository absent from src/;
its members are taken from the uses in endpoint.py and registry.py). -/
inductive OumanUnit
  | celsius
  | percent
  | second
  | enum
deriving DecidableEq, Repr

/-- Control enumerations.  The `OperationMode` and `HomeAwayControl`
string-enumeration classes live in a module absent from src/; they are
modelled as tags, with their wire values taken from
`ENDPOINT_VALUE_MAPPING` in const.py (keys of `S_59_85` and `S_135_85`). -/
inductive ControlEnumType
  | operationMode
  | homeAwayControl
deriving DecidableEq, Repr

/-- Wire values of the members of a control enumeration. -/
def enumTypeValues : ControlEnumType → List String
  | .operationMode => ["0", "1", "2", "3", "5", "6"]
  | .homeAwayControl => ["0", "1", "2"]

/-- A member of a control enumeration: the enumeration it belongs to
(Python's `isinstance` checks exactly this) and its wire string. -/
structure ControlEnumValue where
  ty : ControlEnumType
  val : String
deriving DecidableEq, Repr

/-- Base endpoint descriptor (dataclass `OumanEndpoint` in endpoint.py). -/
structure OumanEndpoint where
  name : String
  unit : Option OumanUnit
  sensor_endpoint_id : String
deriving DecidableEq, Repr

/-- Dataclass `IntControlOumanEndpoint` in endpoint.py. -/
structure IntControlOumanEndpoint where
  name : String
  unit : Option OumanUnit
  sensor_endpoint_id : String
  control_endpoint_id : String
  min_val : ℤ
  max_val : ℤ
deriving DecidableEq, Repr

/-- Dataclass `FloatControlOumanEndpoint` in endpoint.py. -/
structure FloatControlOumanEndpoint where
  name : String
  unit : Option OumanUnit
  sensor_endpoint_id : String
  control_endpoint_id : String
  min_val : Dec
  max_val : Dec
deriving DecidableEq, Repr

/-- Dataclass `EnumControlOumanEndpoint` in endpoint.py. -/
structure EnumControlOumanEndpoint where
  name : String
  unit : Option OumanUnit
  sensor_endpoint_id : String
  control_endpoint_ids : List String
  response_endpoint_ids : List String
  enum_type : ControlEnumType
deriving DecidableEq, Repr

/-- An endpoint of any of the five declared kinds, as stored in a registry
class body (`NumberOumanEndpoint` adds no fields to the base class). -/
inductive AnyEndpoint
  | plain (e : OumanEndpoint)
  | number (e : OumanEndpoint)
  | intControl (e : IntControlOumanEndpoint)
  | floatControl (e : FloatControlOumanEndpoint)
  | enumControl (e : EnumControlOumanEndpoint)
deriving DecidableEq, Repr

/-- Semantic name of an endpoint of any kind. -/
def AnyEndpoint.epName : AnyEndpoint → String
  | .plain e => e.name
  | .number e => e.name
  | .intControl e => e.name
  | .floatControl e => e.name
  | .enumControl e => e.name

/-- Sensor (read) wire ID of an endpoint of any kind. -/
def AnyEndpoint.sensorId : AnyEndpoint → String
  | .plain e => e.sensor_endpoint_id
  | .number e => e.sensor_endpoint_id
  | .intControl e => e.sensor_endpoint_id
  | .floatControl e => e.sensor_endpoint_id
  | .enumControl e => e.sensor_endpoint_id

/-- Whether `needle` starts the list `hay`. -/
def startsWithList : List Char → List Char → Bool
  | [], _ => true
  | _ :: _, [] => false
  | a :: as, b :: bs => a = b && startsWithList as bs

/-- Whether `needle` occurs contiguously inside `hay`. -/
def listHas (needle : List Char) : List Char → Bool
  | [] => needle.isEmpty
  | c :: rest => startsWithList needle (c :: rest) || listHas needle rest

/-- Whether the string `hay` mentions the string `needle`. -/
def strMentions (needle hay : String) : Bool := listHas needle.toList hay.toList

example : strMentions "missing" "Endpoint ID missing from response" = true := by
  decide

/-- Cause chained onto an `OumanClientCommunicationError` (Python
`err.__cause__`), which `_update_values` inspects. -/
inductive CommCause
  | timedOut
  | httpResponse (status : ℕ)
  | netFailure
deriving DecidableEq, Repr

/-- Errors the embedded client operations can raise.  The first five model
the typed exceptions raised explicitly by client.py; `unboundLocal` models
a Python `UnboundLocalError` (a local read before assignment);
`unpackValueError` models the uncaught `ValueError` raised by tuple
unpacking inside `_parse_api_response`. -/
inductive PyError
  | commError (cause : CommCause) (msg : String)
  | authError (msg : String)
  | clientError (msg : String)
  | valueError (msg : String)
  | typeError (msg : String)
  | unboundLocal
  | unpackValueError
deriving DecidableEq, Repr

/-- Credentials and address held by `OumanEh800Client`. -/
structure ClientConfig where
  address : String
  username : String
  password : String
deriving DecidableEq, Repr

/-- One observable outcome of a transport round-trip: a 2xx reply carrying
a body, a timeout, an HTTP error status (for which `raise_for_status`
raises `aiohttp.ClientResponseError`, so `status ≥ 400`), or another
network failure (`aiohttp.ClientError`). -/
inductive TransportOutcome
  | success (body : List Char)
  | timedOut
  | httpStatus (status : ℕ)
  | netFailure
deriving DecidableEq, Repr

/-- A request the client dispatched: its path and its parameter strings
(as passed to `_construct_request_url`, before the cache-busting timestamp
parameter and URL assembly, which no claim concerns). -/
structure Request where
  path : String
  params : List String
deriving DecidableEq, Repr

/-- Transport script still to be consumed plus the log of requests issued
so far. -/
structure ClientState where
  script : List TransportOutcome
  log : List Request
deriving DecidableEq, Repr

/-- Message of the timeout branch of `_request`. -/
def commTimeoutMsg : String := "Timeout connecting to device"

/-- Message of the HTTP-status branch of `_request`. -/
def commHttpMsg (status : ℕ) : String := "HTTP Error: " ++ toString status

/-- Message of the network-failure branch of `_request` (the interpolated
cause is elided). -/
def commNetMsg : String := "Network error"

/-- Model of `OumanEh800Client._request`: log the request, consume the next
scripted transport outcome, decode a successful body, and map transport
failures to `OumanClientCommunicationError` with the matching cause.  An
exhausted script is modelled as a network failure. -/
def requestStep (path : String) (params : List String) (st : ClientState) :
    Except PyError OumanResponse × ClientState :=
  let logged : ClientState := ⟨st.script, st.log ++ [⟨path, params⟩]⟩
  match logged.script with
  | [] => (.error (.commError .netFailure commNetMsg), ⟨[], logged.log⟩)
  | o :: rest =>
      let next : ClientState := ⟨rest, logged.log⟩
      match o with
      | .success body =>
          match parse_api_response body with
          | some r => (.ok r, next)
          | none => (.error .unpackValueError, next)
      | .timedOut => (.error (.commError .timedOut commTimeoutMsg), next)
      | .httpStatus s => (.error (.commError (.httpResponse s) (commHttpMsg s)), next)
      | .netFailure => (.error (.commError .netFailure commNetMsg), next)

/-- Message of the wrong-credentials branch of `login`. -/
def loginAuthMsg : String := "Wrong username or password"

/-- Message of the unexpected-response branch of `login` (the interpolated
response is elided). -/
def loginUnexpectedMsg : String := "Unexpected response from login request"

/-- Model of `OumanEh800Client.login`: request the login path with the
credential parameters, then require a `result=ok` field; `result=error`
raises `OumanClientAuthenticationError`, anything else raises the generic
`OumanClientError`. -/
def loginStep (cfg : ClientConfig) (st : ClientState) :
    Except PyError OumanResponse × ClientState :=
  match requestStep "login"
      ["uid=" ++ cfg.username, "pwd=" ++ cfg.password] st with
  | (.error e, st1) => (.error e, st1)
  | (.ok r, st1) =>
      if dictLookup "result".toList r.values = some "ok".toList then (.ok r, st1)
      else if dictLookup "result".toList r.values = some "error".toList then
        (.error (.authError loginAuthMsg), st1)
      else (.error (.clientError loginUnexpectedMsg), st1)

/-- Model of `OumanEh800Client._update_values`.  The key/value mapping is
formatted into `key=value` parameters and dispatched on the update path.
An `OumanClientCommunicationError` whose cause is not an HTTP status error
is re-raised; an HTTP 404 triggers one `login()` and one retry.  For an
HTTP status other than 404 the source's `except` block handles the
exception without re-raising and falls through to `return response` with
the local `response` never assigned, so Python raises `UnboundLocalError`
(modelled by `.unboundLocal`). -/
def updateValuesStep (cfg : ClientConfig) (kvs : List (String × String))
    (st : ClientState) : Except PyError OumanResponse × ClientState :=
  let params := kvs.map (fun kv => kv.1 ++ "=" ++ kv.2)
  match requestStep "update" params st with
  | (.ok r, st1) => (.ok r, st1)
  | (.error e, st1) =>
      match e with
      | .commError (.httpResponse status) _ =>
          if status = 404 then
            match loginStep cfg st1 with
            | (.error e2, st2) => (.error e2, st2)
            | (.ok _, st2) => requestStep "update" params st2
          else (.error .unboundLocal, st1)
      | _ => (.error e, st1)

/-- Message of the bounds check in `_set_int_endpoint` and
`_set_float_endpoint` (the interpolated bounds and value are elided). -/
def outOfBoundsMsg (name : String) : String :=
  "Value for " ++ name ++ " out of bounds"

/-- Message of the missing-ID branch of `_set_int_endpoint`. -/
def intMissingMsg : String :=
  "Endpoint ID missing from set int endpoint response"

/-- Message of the unparsable-float branches of `_set_int_endpoint` and
`_set_float_endpoint`. -/
def parseFloatMsg : String :=
  "API returned value cannot be parsed into a float"

/-- Message of the mismatch branch of `_set_int_endpoint`. -/
def intMismatchMsg : String :=
  "Returned float does not match set int value"

/-- Response validation of `_set_int_endpoint` (client.py lines 170 to
185): the `if not (result_value := ...)` walrus test treats an absent key
and an empty string alike, the value must parse as a float and must equal
the written integer numerically. -/
def intPostCheck (ep : IntControlOumanEndpoint) (value : ℤ)
    (result : OumanResponse) : Option PyError :=
  match dictLookup ep.sensor_endpoint_id.toList result.values with
  | none => some (.clientError intMissingMsg)
  | some rv =>
      if rv.isEmpty then some (.clientError intMissingMsg)
      else
        match pyFloatParse rv with
        | none => some (.clientError parseFloatMsg)
        | some q =>
            if !(q.numEq (Dec.ofInt value)) then
              some (.clientError intMismatchMsg)
            else none

/-- Model of `OumanEh800Client._set_int_endpoint`: bounds-check the value,
write `{control_endpoint_id: str(value)}` through `_update_values`, then
validate the echoed value. -/
def set_int_endpoint (cfg : ClientConfig) (ep : IntControlOumanEndpoint)
    (value : ℤ) (st : ClientState) :
    Except PyError OumanResponse × ClientState :=
  if ¬ (ep.min_val ≤ value ∧ value ≤ ep.max_val) then
    (.error (.valueError (outOfBoundsMsg ep.name)), st)
  else
    match updateValuesStep cfg
        (pyDictInsert ep.control_endpoint_id (toString value) []) st with
    | (.error e, st1) => (.error e, st1)
    | (.ok result, st1) =>
        match intPostCheck ep value result with
        | some e => (.error e, st1)
        | none => (.ok result, st1)

/-- Message of the missing-ID branch of `_set_float_endpoint`. -/
def floatMissingMsg : String :=
  "Endpoint ID missing from set float endpoint response"

/-- Message of the mismatch branch of `_set_float_endpoint`. -/
def floatMismatchMsg : String :=
  "Returned float does not match set value"

/-- Response validation of `_set_float_endpoint` (client.py lines 203 to
218), comparing against the already rounded value. -/
def floatPostCheck (ep : FloatControlOumanEndpoint) (rounded : Dec)
    (result : OumanResponse) : Option PyError :=
  match dictLookup ep.sensor_endpoint_id.toList result.values with
  | none => some (.clientError floatMissingMsg)
  | some rv =>
      if rv.isEmpty then some (.clientError floatMissingMsg)
      else
        match pyFloatParse rv with
        | none => some (.clientError parseFloatMsg)
        | some q =>
            if !(q.numEq rounded) then some (.clientError floatMismatchMsg)
            else none

/-- Model of `OumanEh800Client._set_float_endpoint`: bounds-check the
value, round it to one decimal, write
`{control_endpoint_id: str(round(value, 1))}` through `_update_values`,
then validate the echoed value against the rounded value. -/
def set_float_endpoint (cfg : ClientConfig) (ep : FloatControlOumanEndpoint)
    (value : Dec) (st : ClientState) :
    Except PyError OumanResponse × ClientState :=
  if ¬ (Dec.numLe ep.min_val value ∧ Dec.numLe value ep.max_val) then
    (.error (.valueError (outOfBoundsMsg ep.name)), st)
  else
    match updateValuesStep cfg
        (pyDictInsert ep.control_endpoint_id (tenthRepr (pyRound1 value).mant)
          []) st with
    | (.error e, st1) => (.error e, st1)
    | (.ok result, st1) =>
        match floatPostCheck ep (pyRound1 value) result with
        | some e => (.error e, st1)
        | none => (.ok result, st1)

/-- Message of the wrong-type branch of `_set_enum_endpoint`. -/
def enumTypeMsg (name : String) : String :=
  "Unexpected type for " ++ name ++ " value"

/-- Message of the missing-ID branch of `_set_enum_endpoint`. -/
def enumMissingMsg : String :=
  "Endpoint ID missing from set enum endpoint response"

/-- Message of the mismatch branch of `_set_enum_endpoint`. -/
def enumMismatchMsg : String :=
  "Returned value does not match str enum value"

/-- The `for endpoint_id in endpoint.response_endpoint_ids` loop of
`_set_enum_endpoint`: raise on the first ID whose value is absent or empty
(the walrus `if not` test again), otherwise report the loop variable
`result_value` left over from the final iteration (`none` when the ID list
is empty and the variable was never assigned). -/
def enumRespScan (result : OumanResponse) :
    List String → Except PyError (Option (List Char))
  | [] => .ok none
  | i :: rest =>
      match dictLookup i.toList result.values with
      | none => .error (.clientError enumMissingMsg)
      | some rv =>
          if rv.isEmpty then .error (.clientError enumMissingMsg)
          else
            match enumRespScan result rest with
            | .error e => .error e
            | .ok none => .ok (some rv)
            | .ok (some last) => .ok (some last)

/-- Response validation of `_set_enum_endpoint` (client.py lines 232 to
241): every response ID must be present and truthy, then the value of the
last iteration is compared with the written value. -/
def enumPostCheck (ep : EnumControlOumanEndpoint) (value : ControlEnumValue)
    (result : OumanResponse) : Option PyError :=
  match enumRespScan result ep.response_endpoint_ids with
  | .error e => some e
  | .ok none => some .unboundLocal
  | .ok (some last) =>
      if last ≠ value.val.toList then some (.clientError enumMismatchMsg)
      else none

/-- Model of `OumanEh800Client._set_enum_endpoint`: require the value to be
an instance of the endpoint's enumeration type, write every control ID
with the value in one request (a dict comprehension, modelled by folding
`pyDictInsert`), then validate the response. -/
def set_enum_endpoint (cfg : ClientConfig) (ep : EnumControlOumanEndpoint)
    (value : ControlEnumValue) (st : ClientState) :
    Except PyError OumanResponse × ClientState :=
  if value.ty ≠ ep.enum_type then
    (.error (.typeError (enumTypeMsg ep.name)), st)
  else
    match updateValuesStep cfg
        ((ep.control_endpoint_ids.foldl
            (fun m i => pyDictInsert i value.val m) [])) st with
    | (.error e, st1) => (.error e, st1)
    | (.ok result, st1) =>
        match enumPostCheck ep value result with
        | some e => (.error e, st1)
        | none => (.ok result, st1)

/-- One pass of `OumanRegistry.iterate_endpoints` over the `__dict__` of a
single class in the MRO: yield the members whose attribute name was not
seen yet, extending the seen set (attribute insertion order is preserved
by Python dicts). -/
def framePass (seen : List String) :
    List (String × AnyEndpoint) → List (String × AnyEndpoint) × List String
  | [] => ([], seen)
  | (k, e) :: more =>
      if k ∈ seen then framePass seen more
      else
        let p := framePass (seen ++ [k]) more
        ((k, e) :: p.1, p.2)

/-- The `for base in cls.mro()` loop of `iterate_endpoints`, most specific
class first, threading the seen attribute names through the frames.  The
attribute name of each yielded member is kept alongside it. -/
def iterEndpointsAux (seen : List String) :
    List (List (String × AnyEndpoint)) → List (String × AnyEndpoint)
  | [] => []
  | frame :: rest =>
      let p := framePass seen frame
      p.1 ++ iterEndpointsAux p.2 rest

/-- Model of `OumanRegistry.iterate_endpoints` on a registry given by the
endpoint-valued attributes of every class of its MRO, most specific
first. -/
def iterate_endpoints (mro : List (List (String × AnyEndpoint))) :
    List AnyEndpoint :=
  (iterEndpointsAux [] mro).map Prod.snd

/-- Left-to-right single-pass deduplication by key against a seen set;
`iterEndpointsAux` is proved equal to this pass over the concatenated
frames. -/
def scanDedup (seen : List String) :
    List (String × AnyEndpoint) → List (String × AnyEndpoint)
  | [] => []
  | (k, e) :: more =>
      if k ∈ seen then scanDedup seen more
      else (k, e) :: scanDedup (seen ++ [k]) more

/-- Specification-side deduplication: keep the first binding of every key,
in order of first appearance (spec.md section 4.3: "collecting each
distinctly-named member once (first occurrence — the most specific — wins),
in stable attribute-declaration order"). -/
def firstKeyDedup {κ ν : Type} [DecidableEq κ] : List (κ × ν) → List (κ × ν)
  | [] => []
  | (k, v) :: rest =>
      (k, v) :: (firstKeyDedup rest).filter (fun p => decide (p.1 ≠ k))

/-- Class body of `OumanRegistry` itself: no endpoint members. -/
def oumanRegistryFrame : List (String × AnyEndpoint) := []

/-- Endpoint members of class `SystemEndpoints` (registry.py). -/
def systemFrame : List (String × AnyEndpoint) := [
  ("TREND_SAMPLE_INTERVAL", .intControl
    ⟨"trend_sampling_interval", some .second, "S_26_85", "@_S_26_85", 30, 21600⟩),
  ("HOME_AWAY_MODE", .enumControl
    ⟨"home_away_mode", none, "S_135_85", ["S_135_85", "S_222_85"],
      ["S_222_85"], .homeAwayControl⟩),
  ("OUTSIDE_TEMPERATURE", .number ⟨"outside_temperature", some .celsius, "S_227_85"⟩),
  ("RELAY_CONFIGURATION_TYPE", .plain ⟨"relay_configuration_type", none, "S_1002_85"⟩),
  ("RELAY_STATUS_TEXT", .plain ⟨"relay_status_text", none, "S_1004_85"⟩),
  ("L2_INSTALLED_STATUS", .plain ⟨"l2_installed_status", none, "S_140_85"⟩)]

/-- Endpoint members of class `L1Endpoints` (registry.py). -/
def l1Frame : List (String × AnyEndpoint) := [
  ("OPERATION_MODE", .enumControl
    ⟨"l1_operation_mode", none, "S_59_85", ["S_59_85"], ["S_59_85"],
      .operationMode⟩),
  ("VALVE_POSITION_SETPOINT", .intControl
    ⟨"l1_valve_position_setpoint", some .percent, "S_92_85", "S_92_85", 0, 100⟩),
  ("CURVE_MINUS_20_TEMP", .intControl
    ⟨"l1_curve_minus_20_temperature", some .celsius, "S_61_85", "@_S_61_85", 0, 99⟩),
  ("CURVE_0_TEMP", .intControl
    ⟨"l1_curve_0_temperature", some .celsius, "S_63_85", "@_S_63_85", 0, 99⟩),
  ("CURVE_20_TEMP", .intControl
    ⟨"l1_curve_20_temperature", some .celsius, "S_65_85", "@_S_65_85", 0, 99⟩),
  ("TEMPERATURE_DROP", .intControl
    ⟨"l1_temperature_drop", some .celsius, "S_89_85", "@_S_89_85", 0, 90⟩),
  ("BIG_TEMPERATURE_DROP", .intControl
    ⟨"l1_big_temperature_drop", some .celsius, "S_90_85", "@_S_90_85", 0, 90⟩),
  ("WATER_OUT_MIN_TEMP", .intControl
    ⟨"l1_water_out_minimum_temperature", some .celsius, "S_54_85", "@_S_54_85", 5, 95⟩),
  ("WATER_OUT_MAX_TEMP", .intControl
    ⟨"l1_water_out_maximum_temperature", some .celsius, "S_55_85", "@_S_55_85", 5, 95⟩),
  ("ROOM_TEMPERATURE_FINE_TUNING", .floatControl
    ⟨"l1_room_temperature_fine_tuning", some .celsius, "S_134_85", "@_S_134_85",
      .ofTenths (-40), .ofTenths 40⟩),
  ("HEATING_SHUTDOWN_STATUS", .plain ⟨"l1_heating_shutdown_status", none, "S_0_0"⟩),
  ("TEMPERATURE_LEVEL_STATUS_TEXT", .plain
    ⟨"l1_temperature_level_status_text", none, "S_1000_0"⟩),
  ("CIRCUIT_NAME", .plain ⟨"l1_circuit_name", none, "S_131_85"⟩),
  ("SUPPLY_WATER_TEMPERATURE", .number
    ⟨"l1_supply_water_temperature", some .celsius, "S_259_85"⟩),
  ("VALVE_POSITION", .number ⟨"l1_valve_position", some .percent, "S_272_85"⟩),
  ("SUPPLY_WATER_TEMPERATURE_SETPOINT", .number
    ⟨"l1_supply_water_temperature_setpoint", some .celsius, "S_275_85"⟩),
  ("ROOM_SENSOR_INSTALLED", .plain ⟨"l1_room_sensor_installed", none, "S_261_111"⟩)]

/-- Endpoint members of class `L1EndpointsWithRoomSensor` (registry.py),
overriding `ROOM_TEMPERATURE_FINE_TUNING`. -/
def l1RoomSensorFrame : List (String × AnyEndpoint) := [
  ("ROOM_SENSOR_POTENTIOMETER", .number
    ⟨"l1_room_sensor_potentiometer", some .celsius, "S_274_85"⟩),
  ("ROOM_TEMPERATURE", .number ⟨"l1_room_temperature", some .celsius, "S_261_85"⟩),
  ("ROOM_TEMPERATURE_SETPOINT", .number
    ⟨"l1_room_temperature_setpoint", some .celsius, "S_278_85"⟩),
  ("ROOM_TEMPERATURE_FINE_TUNING", .floatControl
    ⟨"l1_room_temperature_fine_tuning", some .celsius, "S_102_85", "@_S_102_85",
      .ofTenths (-40), .ofTenths 40⟩)]

/-- Endpoint members of class `L2Endpoints` (registry.py). -/
def l2Frame : List (String × AnyEndpoint) := [
  ("OPERATION_MODE", .enumControl
    ⟨"l2_operation_mode", none, "S_146_85", ["S_146_85"], ["S_146_85"],
      .operationMode⟩),
  ("VALVE_POSITION_SETPOINT", .intControl
    ⟨"l2_valve_position_setpoint", some .percent, "S_179_85", "S_179_85", 0, 100⟩),
  ("CURVE_MINUS_20_TEMP", .intControl
    ⟨"l2_curve_minus_20_temperature", some .celsius, "S_148_85", "@_S_148_85", 0, 99⟩),
  ("CURVE_0_TEMP", .intControl
    ⟨"l2_curve_0_temperature", some .celsius, "S_150_85", "@_S_150_85", 0, 99⟩),
  ("CURVE_20_TEMP", .intControl
    ⟨"l2_curve_20_temperature", some .celsius, "S_152_85", "@_S_152_85", 0, 99⟩),
  ("TEMPERATURE_DROP", .intControl
    ⟨"l2_temperature_drop", some .celsius, "S_176_85", "@_S_176_85", 0, 90⟩),
  ("BIG_TEMPERATURE_DROP", .intControl
    ⟨"l2_big_temperature_drop", some .celsius, "S_177_85", "@_S_177_85", 0, 90⟩),
  ("WATER_OUT_MIN_TEMP", .intControl
    ⟨"l2_water_out_minimum_temperature", some .celsius, "S_141_85", "@_S_141_85", 5, 95⟩),
  ("WATER_OUT_MAX_TEMP", .intControl
    ⟨"l2_water_out_maximum_temperature", some .celsius, "S_142_85", "@_S_142_85", 5, 95⟩),
  ("ROOM_TEMPERATURE_FINE_TUNING", .floatControl
    ⟨"l2_room_temperature_fine_tuning", some .celsius, "S_221_85", "@_S_221_85",
      .ofTenths (-40), .ofTenths 40⟩),
  ("TEMPERATURE_LEVEL_STATUS_TEXT", .plain
    ⟨"l2_temperature_level_status_text", none, "S_1001_0"⟩),
  ("CIRCUIT_NAME", .plain ⟨"l2_circuit_name", none, "S_218_85"⟩),
  ("SUPPLY_WATER_TEMPERATURE", .number
    ⟨"l2_supply_water_temperature", some .celsius, "S_293_85"⟩),
  ("SUPPLY_WATER_TEMPERATURE_SETPOINT", .number
    ⟨"l2_supply_water_temperature_setpoint", some .celsius, "S_310_85"⟩),
  ("ROOM_SENSOR_INSTALLED", .plain ⟨"l2_room_sensor_installed", none, "S_295_111"⟩)]

/-- Endpoint members of class `L2EndpointsWithRoomSensor` (registry.py),
overriding `ROOM_TEMPERATURE_FINE_TUNING`. -/
def l2RoomSensorFrame : List (String × AnyEndpoint) := [
  ("ROOM_SENSOR_POTENTIOMETER", .number
    ⟨"l2_room_sensor_potentiometer", some .celsius, "S_307_85"⟩),
  ("ROOM_TEMPERATURE", .number ⟨"l2_room_temperature", some .celsius, "S_295_85"⟩),
  ("ROOM_TEMPERATURE_SETPOINT", .number
    ⟨"l2_room_temperature_setpoint", some .celsius, "S_313_85"⟩),
  ("ROOM_TEMPERATURE_FINE_TUNING", .floatControl
    ⟨"l2_room_temperature_fine_tuning", some .celsius, "S_189_85", "@_S_189_85",
      .ofTenths (-40), .ofTenths 40⟩)]

/-- A registry class: its name (class identity) and the endpoint members
of each class of its MRO, most specific first. -/
structure Registry where
  className : String
  mro : List (List (String × AnyEndpoint))
deriving DecidableEq, Repr

/-- The `SystemEndpoints` registry. -/
def systemRegistry : Registry := ⟨"SystemEndpoints", [systemFrame, oumanRegistryFrame]⟩

/-- The `L1Endpoints` registry. -/
def l1Registry : Registry := ⟨"L1Endpoints", [l1Frame, oumanRegistryFrame]⟩

/-- The `L1EndpointsWithRoomSensor` registry. -/
def l1RoomSensorRegistry : Registry :=
  ⟨"L1EndpointsWithRoomSensor", [l1RoomSensorFrame, l1Frame, oumanRegistryFrame]⟩

/-- The `L2Endpoints` registry. -/
def l2Registry : Registry := ⟨"L2Endpoints", [l2Frame, oumanRegistryFrame]⟩

/-- The `L2EndpointsWithRoomSensor` registry. -/
def l2RoomSensorRegistry : Registry :=
  ⟨"L2EndpointsWithRoomSensor", [l2RoomSensorFrame, l2Frame, oumanRegistryFrame]⟩

/-- Sensor wire IDs contributed by a registry, in iteration order (method
`get_sensor_endpoint_ids`). -/
def registrySensorIds (r : Registry) : List String :=
  (iterate_endpoints r.mro).map AnyEndpoint.sensorId

/-- Whether some registry occurs twice in the list. -/
def hasDupRegistry : List Registry → Bool
  | [] => false
  | r :: rest => rest.any (fun r2 => decide (r2 = r)) || hasDupRegistry rest

/-- First sensor wire ID contributed by two registries of the list, if
any. -/
def findConflictId : List Registry → Option String
  | [] => none
  | r :: rest =>
      match (registrySensorIds r).find?
          (fun i => rest.any (fun r2 => (registrySensorIds r2).contains i)) with
      | some i => some i
      | none => findConflictId rest

/-- Message of the duplicate-registry validation failure. -/
def dupRegistryMsg : String := "Multiple of the same registry in registry set"

/-- Message of the conflicting-ID validation failure, naming the ID. -/
def conflictMsg (i : String) : String :=
  "Conflicting endpoint IDs in registry set: " ++ i

/-- A validated composition of registries. -/
structure OumanRegistrySet where
  registries : List Registry
deriving DecidableEq, Repr

/-- Modelled from the spec: the `OumanRegistrySet` constructor validation
is declared in a version of registry.py absent from src/ (only
tests/test_registry.py exercises it).  Per spec.md sections 3 and 4.3,
construction fails with a descriptive ValueError-class error when a
registry appears more than once in the list, or when two registries of the
list contribute endpoints sharing a `sensor_endpoint_id` (the error naming
the conflicting ID); otherwise it succeeds. -/
def mkRegistrySet (rs : List Registry) : Except PyError OumanRegistrySet :=
  if hasDupRegistry rs then .error (.valueError dupRegistryMsg)
  else
    match findConflictId rs with
    | some i => .error (.valueError (conflictMsg i))
    | none => .ok ⟨rs⟩

/-- Response-body builder used to quantify over response texts of the
shape `c1;c2;...;cn;\x00` (spec.md section 6's response grammar). -/
def encodeChunks (chunks : List (List Char)) : List Char :=
  chunks.foldr (fun c acc => c ++ ';' :: acc) ['\x00']

/-- Sequence of Python dict assignments `m[k] = v`, left to right. -/
def insertAll {κ ν : Type} [DecidableEq κ] (segs : List (κ × ν))
    (m : List (κ × ν)) : List (κ × ν) :=
  segs.foldl (fun acc s => pyDictInsert s.1 s.2 acc) m

/-- Specification-side key sequence: each key once, in order of first
appearance. -/
def firstOccur {κ : Type} [DecidableEq κ] : List κ → List κ
  | [] => []
  | k :: rest => k :: (firstOccur rest).filter (fun a => decide (a ≠ k))

/-- Append a key if it is not present yet (key-set evolution of a sequence
of dict assignments). -/
def addNew {κ : Type} [DecidableEq κ] (ks : List κ) (k : κ) : List κ :=
  if k ∈ ks then ks else ks ++ [k]

/-- A concrete client configuration for concrete evaluations. -/
def defaultCfg : ClientConfig := ⟨"http://10.0.0.1", "user", "password"⟩

/-- `L1Endpoints.VALVE_POSITION_SETPOINT` as declared in endpoint.py, the
module client.py imports from. -/
def valvePositionEp : IntControlOumanEndpoint :=
  ⟨"l1_valve_position_setpoint", some .percent, "S_92_85", "S_92_85", 0, 100⟩

/-- `L1Endpoints.ROOM_TEMPERATURE_FINE_TUNING` as declared in endpoint.py. -/
def roomFineTuningEp : FloatControlOumanEndpoint :=
  ⟨"l1_room_temperature_fine_tuning", some .celsius, "S_134_85", "@_S_134_85",
    .ofTenths (-40), .ofTenths 40⟩

/-- `SystemEndpoints.HOME_AWAY_MODE` as declared in endpoint.py. -/
def homeAwayEp : EnumControlOumanEndpoint :=
  ⟨"home_away_mode", some .enum, "S_135_85", ["S_135_85", "S_222_85"],
    ["S_222_85"], .homeAwayControl⟩

/-! Lemmas about the string utilities. -/

theorem splitFirst_eq_none {sep : Char} :
    ∀ {t : List Char}, splitFirst sep t = none ↔ sep ∉ t := by
  intro t
  induction t with
  | nil => simp [splitFirst]
  | cons c rest ih =>
      by_cases hc : c = sep
      · subst hc; simp [splitFirst]
      · simp [splitFirst, hc, Option.map_eq_none', ih, Ne.symm hc]

theorem splitFirst_append {sep : Char} :
    ∀ {a : List Char} (b : List Char), sep ∉ a →
      splitFirst sep (a ++ sep :: b) = some (a, b) := by
  intro a
  induction a with
  | nil => intro b _; simp [splitFirst]
  | cons c rest ih =>
      intro b h
      have hc : c ≠ sep := fun hcs => h (hcs ▸ List.mem_cons_self c rest)
      have hrest : sep ∉ rest := fun hm => h (List.mem_cons_of_mem c hm)
      simp [splitFirst, hc, ih b hrest]

theorem splitAll_no_sep {sep : Char} :
    ∀ {a : List Char}, sep ∉ a → splitAll sep a = [a] := by
  intro a
  induction a with
  | nil => intro _; rfl
  | cons c rest ih =>
      intro h
      have hc : c ≠ sep := fun hcs => h (hcs ▸ List.mem_cons_self c rest)
      have hrest : sep ∉ rest := fun hm => h (List.mem_cons_of_mem c hm)
      simp [splitAll, hc, ih hrest]

theorem splitAll_append {sep : Char} :
    ∀ {a : List Char} (b : List Char), sep ∉ a →
      splitAll sep (a ++ sep :: b) = a :: splitAll sep b := by
  intro a
  induction a with
  | nil => intro b _; simp [splitAll]
  | cons c rest ih =>
      intro b h
      have hc : c ≠ sep := fun hcs => h (hcs ▸ List.mem_cons_self c rest)
      have hrest : sep ∉ rest := fun hm => h (List.mem_cons_of_mem c hm)
      simp only [List.cons_append, splitAll, if_neg hc, List.append_eq]
      rw [ih b hrest]

theorem mem_dropWhile_of_mem {p : Char → Bool} {c : Char} :
    ∀ {l : List Char}, c ∈ l → p c = false → c ∈ l.dropWhile p := by
  intro l
  induction l with
  | nil => intro h _; exact absurd h (List.not_mem_nil c)
  | cons a rest ih =>
      intro hmem hpc
      by_cases ha : p a
      · rcases List.mem_cons.mp hmem with rfl | hr
        · rw [ha] at hpc; exact absurd hpc (by simp)
        · simpa [List.dropWhile, ha] using ih hr hpc
      · simpa [List.dropWhile, ha] using hmem

theorem pyStrip_ne_nil {c : Char} {s : List Char} (hmem : c ∈ s)
    (hc : isPySpace c = false) : pyStrip s ≠ [] := by
  intro hnil
  unfold pyStrip at hnil
  rw [List.reverse_eq_nil_iff, List.dropWhile_eq_nil_iff] at hnil
  have h1 : c ∈ (s.dropWhile isPySpace).reverse :=
    List.mem_reverse.mpr (mem_dropWhile_of_mem hmem hc)
  have := hnil c h1
  rw [hc] at this
  exact absurd this (by simp)

/-! Lemmas about ordered-dict operations. -/

theorem dictLookup_pyDictInsert {κ ν : Type} [DecidableEq κ] (k k' : κ)
    (v : ν) : ∀ m, dictLookup k (pyDictInsert k' v m) =
      if k' = k then some v else dictLookup k m := by
  intro m
  induction m with
  | nil => simp [pyDictInsert, dictLookup]
  | cons p rest ih =>
      obtain ⟨a, b⟩ := p
      by_cases ha : a = k'
      · subst ha
        by_cases hk : a = k
        · subst hk; simp [pyDictInsert, dictLookup]
        · simp [pyDictInsert, dictLookup, hk, fun h => hk (h : a = k)]
      · by_cases hk : a = k
        · subst hk
          have : ¬ k' = a := fun h => ha h.symm
          simp [pyDictInsert, dictLookup, ha, this]
        · simp [pyDictInsert, dictLookup, ha, hk, ih]

theorem dictLookup_append {κ ν : Type} [DecidableEq κ] (k : κ) :
    ∀ (l1 l2 : List (κ × ν)), dictLookup k (l1 ++ l2) =
      match dictLookup k l1 with
      | some v => some v
      | none => dictLookup k l2 := by
  intro l1 l2
  induction l1 with
  | nil => simp [dictLookup]
  | cons p rest ih =>
      obtain ⟨a, b⟩ := p
      by_cases ha : a = k <;> simp [dictLookup, ha, ih]

theorem keys_pyDictInsert {κ ν : Type} [DecidableEq κ] (k : κ) (v : ν) :
    ∀ m : List (κ × ν), (pyDictInsert k v m).map Prod.fst =
      addNew (m.map Prod.fst) k := by
  intro m
  induction m with
  | nil => simp [pyDictInsert, addNew]
  | cons p rest ih =>
      obtain ⟨a, b⟩ := p
      by_cases ha : a = k
      · subst ha; simp [pyDictInsert, addNew]
      · have hka : ¬ (k = a ∨ k ∈ rest.map Prod.fst) ↔ ¬ (k ∈ rest.map Prod.fst) := by
          constructor
          · intro h hm; exact h (Or.inr hm)
          · intro h hm
            rcases hm with h1 | h2
            · exact ha h1.symm
            · exact h h2
        simp only [pyDictInsert, if_neg ha, List.map_cons, ih, addNew,
          List.mem_cons]
        by_cases hm : k ∈ rest.map Prod.fst
        · simp [hm]
        · simp only [hm, or_false]
          have : ¬ k = a := fun h => ha h.symm
          simp [this]

theorem lookup_insertAll {κ ν : Type} [DecidableEq κ] (k : κ) :
    ∀ (segs : List (κ × ν)) (m : List (κ × ν)),
      dictLookup k (insertAll segs m) =
        match dictLookup k segs.reverse with
        | some v => some v
        | none => dictLookup k m := by
  intro segs
  induction segs with
  | nil => intro m; simp [insertAll, dictLookup]
  | cons s rest ih =>
      intro m
      have step : insertAll (s :: rest) m = insertAll rest (pyDictInsert s.1 s.2 m) := by
        simp [insertAll]
      rw [step, ih, List.reverse_cons, dictLookup_append]
      rcases h : dictLookup k rest.reverse with _ | v
      · simp only [dictLookup_pyDictInsert]
        by_cases hs : s.1 = k <;> simp [dictLookup, hs]
      · rfl

theorem keys_insertAll {κ ν : Type} [DecidableEq κ] :
    ∀ (segs : List (κ × ν)) (m : List (κ × ν)),
      (insertAll segs m).map Prod.fst =
        (segs.map Prod.fst).foldl addNew (m.map Prod.fst) := by
  intro segs
  induction segs with
  | nil => intro m; simp [insertAll]
  | cons s rest ih =>
      intro m
      have step : insertAll (s :: rest) m = insertAll rest (pyDictInsert s.1 s.2 m) := by
        simp [insertAll]
      rw [step, ih, keys_pyDictInsert]
      rfl

theorem foldl_addNew {κ : Type} [DecidableEq κ] :
    ∀ (l : List κ) (acc : List κ),
      l.foldl addNew acc = acc ++ (firstOccur l).filter (fun a => decide (a ∉ acc)) := by
  intro l
  induction l with
  | nil => intro acc; simp [firstOccur]
  | cons k rest ih =>
      intro acc
      simp only [List.foldl_cons]
      by_cases hk : k ∈ acc
      · rw [show addNew acc k = acc from if_pos hk, ih]
        congr 1
        rw [firstOccur, List.filter_cons]
        have hkmem : (decide (k ∉ acc)) = false := by simp [hk]
        simp only [hkmem, Bool.false_eq_true, if_neg, List.filter_filter]
        refine (List.filter_congr ?_).symm
        intro a _
        by_cases hak : a = k
        · subst hak; simp [hk]
        · simp [hak]
      · rw [show addNew acc k = acc ++ [k] from if_neg hk, ih]
        rw [firstOccur, List.filter_cons]
        have hknot : (decide (k ∉ acc)) = true := by simp [hk]
        simp only [hknot, if_pos, List.append_assoc, List.cons_append,
          List.nil_append, List.filter_filter]
        congr 2
        refine List.filter_congr ?_
        intro a _
        by_cases hak : a = k
        · subst hak; simp [hk]
        · simp [hak, List.mem_append]

/-! Lemmas about the response decoder. -/

theorem parse_decomp {p : List Char} (body : List Char) (hp : '?' ∉ p) :
    parse_api_response (p ++ '?' :: body) = some ⟨p, parseBody body⟩ := by
  unfold parse_api_response
  rw [splitFirst_append body hp]

theorem splitAll_encodeChunks :
    ∀ {chunks : List (List Char)}, (∀ c ∈ chunks, ';' ∉ c) →
      splitAll ';' (encodeChunks chunks) = chunks ++ [['\x00']] := by
  intro chunks
  induction chunks with
  | nil =>
      intro _
      have : ';' ∉ ['\x00'] := by decide
      simpa [encodeChunks] using splitAll_no_sep this
  | cons c rest ih =>
      intro h
      have hc : ';' ∉ c := h c (List.mem_cons_self c rest)
      have hrest : ∀ x ∈ rest, ';' ∉ x := fun x hx => h x (List.mem_cons_of_mem c hx)
      have henc : encodeChunks (c :: rest) = c ++ ';' :: encodeChunks rest := rfl
      rw [henc, splitAll_append (encodeChunks rest) hc, ih hrest]
      rfl

theorem parseBody_encodeChunks {chunks : List (List Char)}
    (hsemi : ∀ c ∈ chunks, ';' ∉ c) :
    parseBody (encodeChunks chunks) =
      (chunks.filter (fun p => !(pyStrip p).isEmpty)).foldl segStep [] := by
  unfold parseBody
  rw [splitAll_encodeChunks hsemi, List.filter_append]
  have hnul : (([['\x00']] : List (List Char)).filter
      (fun p => !(pyStrip p).isEmpty)) = [['\x00']] := by decide
  rw [hnul]
  simp [List.getLast?_concat, List.dropLast_concat]

theorem segStep_kv (m : List (List Char × List Char)) {k : List Char}
    (v : List Char) (hk : '=' ∉ k) :
    segStep m (k ++ '=' :: v) = pyDictInsert (pyStrip k) (pyStrip v) m := by
  unfold segStep
  rw [splitFirst_append v hk]

theorem segStep_skip (m : List (List Char × List Char)) {s : List Char}
    (hs : '=' ∉ s) : segStep m s = m := by
  unfold segStep
  rw [splitFirst_eq_none.mpr hs]

theorem keep_kv {k : List Char} (v : List Char) :
    (!(pyStrip (k ++ '=' :: v)).isEmpty) = true := by
  have hmem : '=' ∈ k ++ '=' :: v := List.mem_append_right k (List.mem_cons_self _ v)
  have := pyStrip_ne_nil hmem (by decide)
  simpa [List.isEmpty_iff] using this

theorem foldl_segStep_map :
    ∀ (segs : List (List Char × List Char)) (m : List (List Char × List Char)),
      (∀ s ∈ segs, '=' ∉ s.1) →
      (segs.map (fun s => s.1 ++ '=' :: s.2)).foldl segStep m =
        insertAll (segs.map (fun s => (pyStrip s.1, pyStrip s.2))) m := by
  intro segs
  induction segs with
  | nil => intro m _; simp [insertAll]
  | cons s rest ih =>
      intro m h
      have hs : '=' ∉ s.1 := h s (List.mem_cons_self s rest)
      have hrest : ∀ x ∈ rest, '=' ∉ x.1 := fun x hx => h x (List.mem_cons_of_mem s hx)
      simp only [List.map_cons, List.foldl_cons, segStep_kv m s.2 hs, ih _ hrest,
        insertAll]

theorem semi_not_mem_kv {k v : List Char} (hk : ';' ∉ k) (hv : ';' ∉ v) :
    ';' ∉ k ++ '=' :: v := by
  intro hmem
  rcases List.mem_append.mp hmem with h | h
  · exact hk h
  · rcases List.mem_cons.mp h with h1 | h2
    · exact absurd h1 (by decide)
    · exact hv h2

/-- C2: for every text before the question mark and all well-formed
segments, decoding `<pre>?k1=v1;k2=v2;\x00` yields that text and exactly
the two whitespace-trimmed entries, and a lone malformed segment (without
an equals sign) inserted between them is skipped without affecting the
entries or failing. -/
theorem c2_decode_two_segments
    (p k1 v1 k2 v2 m : List Char)
    (hp : '?' ∉ p)
    (hk1 : ';' ∉ k1) (hv1 : ';' ∉ v1) (hk2 : ';' ∉ k2) (hv2 : ';' ∉ v2)
    (he1 : '=' ∉ k1) (he2 : '=' ∉ k2)
    (hkk : pyStrip k1 ≠ pyStrip k2)
    (hm : ';' ∉ m) (hem : '=' ∉ m) :
    parse_api_response
        (p ++ '?' :: encodeChunks [k1 ++ '=' :: v1, k2 ++ '=' :: v2]) =
      some ⟨p, [(pyStrip k1, pyStrip v1), (pyStrip k2, pyStrip v2)]⟩ ∧
    parse_api_response
        (p ++ '?' :: encodeChunks [k1 ++ '=' :: v1, m, k2 ++ '=' :: v2]) =
      some ⟨p, [(pyStrip k1, pyStrip v1), (pyStrip k2, pyStrip v2)]⟩ := by
  have hsemi1 : ∀ c ∈ [k1 ++ '=' :: v1, k2 ++ '=' :: v2], ';' ∉ c := by
    intro c hc
    rcases List.mem_cons.mp hc with rfl | hc
    · exact semi_not_mem_kv hk1 hv1
    · rcases List.mem_cons.mp hc with rfl | hc
      · exact semi_not_mem_kv hk2 hv2
      · exact absurd hc (List.not_mem_nil c)
  have hsemi2 : ∀ c ∈ [k1 ++ '=' :: v1, m, k2 ++ '=' :: v2], ';' ∉ c := by
    intro c hc
    rcases List.mem_cons.mp hc with rfl | hc
    · exact semi_not_mem_kv hk1 hv1
    · rcases List.mem_cons.mp hc with rfl | hc
      · exact hm
      · rcases List.mem_cons.mp hc with rfl | hc
        · exact semi_not_mem_kv hk2 hv2
        · exact absurd hc (List.not_mem_nil c)
  have hfold : segStep (segStep [] (k1 ++ '=' :: v1)) (k2 ++ '=' :: v2) =
      [(pyStrip k1, pyStrip v1), (pyStrip k2, pyStrip v2)] := by
    rw [segStep_kv _ v1 he1, segStep_kv _ v2 he2]
    simp [pyDictInsert, hkk]
  refine ⟨?_, ?_⟩
  · rw [parse_decomp _ hp, parseBody_encodeChunks hsemi1]
    simp only [List.filter_cons, keep_kv, if_pos, List.filter_nil,
      List.foldl_cons, List.foldl_nil]
    rw [hfold]
  · rw [parse_decomp _ hp, parseBody_encodeChunks hsemi2]
    have hskip : segStep (segStep [] (k1 ++ '=' :: v1)) m =
        segStep [] (k1 ++ '=' :: v1) := segStep_skip _ hem
    by_cases hkm : (!(pyStrip m).isEmpty) = true
    · have hfilter : List.filter (fun c => !(pyStrip c).isEmpty)
          [k1 ++ '=' :: v1, m, k2 ++ '=' :: v2] =
          [k1 ++ '=' :: v1, m, k2 ++ '=' :: v2] := by
        simp [List.filter_cons, keep_kv, hkm]
      rw [hfilter]
      simp only [List.foldl_cons, List.foldl_nil]
      rw [hskip, hfold]
    · have hkm' : (!(pyStrip m).isEmpty) = false := by simpa using hkm
      have hfilter : List.filter (fun c => !(pyStrip c).isEmpty)
          [k1 ++ '=' :: v1, m, k2 ++ '=' :: v2] =
          [k1 ++ '=' :: v1, k2 ++ '=' :: v2] := by
        simp [List.filter_cons, keep_kv, hkm']
      rw [hfilter]
      simp only [List.foldl_cons, List.foldl_nil]
      rw [hfold]

/-- C2 witness: a concrete decoding with a malformed segment between two
well-formed ones. -/
theorem c2_witness :
    parse_api_response
        ("request".toList ++ '?' :: encodeChunks
          ["S_1".toList ++ '=' :: " 10 ".toList, "junk".toList,
            " S_2".toList ++ '=' :: "20".toList]) =
      some ⟨"request".toList, [("S_1".toList, "10".toList),
        ("S_2".toList, "20".toList)]⟩ := by
  have h := (c2_decode_two_segments "request".toList "S_1".toList " 10 ".toList
    " S_2".toList "20".toList "junk".toList (by decide) (by decide) (by decide)
    (by decide) (by decide) (by decide) (by decide) (by decide) (by decide)
    (by decide)).2
  rw [h]
  decide

/-- C9: decoding a response body built from any well-formed sequence of
key=value segments yields a mapping whose keys are in order of first
appearance and where every key is bound to the value of its last
occurrence. -/
theorem c9_duplicate_keys_last_wins
    (p : List Char) (segs : List (List Char × List Char))
    (hp : '?' ∉ p)
    (hwf : ∀ s ∈ segs, ';' ∉ s.1 ∧ ';' ∉ s.2 ∧ '=' ∉ s.1) :
    ∃ vals,
      parse_api_response
          (p ++ '?' :: encodeChunks (segs.map (fun s => s.1 ++ '=' :: s.2))) =
        some ⟨p, vals⟩ ∧
      vals.map Prod.fst = firstOccur (segs.map (fun s => pyStrip s.1)) ∧
      ∀ k, dictLookup k vals =
        dictLookup k (segs.map (fun s => (pyStrip s.1, pyStrip s.2))).reverse := by
  have hsemi : ∀ c ∈ segs.map (fun s => s.1 ++ '=' :: s.2), ';' ∉ c := by
    intro c hc
    rcases List.mem_map.mp hc with ⟨s, hs, rfl⟩
    exact semi_not_mem_kv (hwf s hs).1 (hwf s hs).2.1
  have hkeep : (segs.map (fun s => s.1 ++ '=' :: s.2)).filter
      (fun p => !(pyStrip p).isEmpty) = segs.map (fun s => s.1 ++ '=' :: s.2) := by
    refine List.filter_eq_self.mpr ?_
    intro c hc
    rcases List.mem_map.mp hc with ⟨s, _, rfl⟩
    exact keep_kv s.2
  have hfold := foldl_segStep_map segs [] (fun s hs => (hwf s hs).2.2)
  refine ⟨insertAll (segs.map (fun s => (pyStrip s.1, pyStrip s.2))) [], ?_, ?_, ?_⟩
  · rw [parse_decomp _ hp, parseBody_encodeChunks hsemi, hkeep, hfold]
  · rw [keys_insertAll]
    have : (segs.map (fun s => (pyStrip s.1, pyStrip s.2))).map Prod.fst =
        segs.map (fun s => pyStrip s.1) := by
      simp [List.map_map]
    rw [this]
    have hnil : (([] : List (List Char × List Char)).map Prod.fst) = [] := rfl
    rw [hnil, foldl_addNew]
    simp
  · intro k
    rw [lookup_insertAll]
    rcases h : dictLookup k (segs.map (fun s => (pyStrip s.1, pyStrip s.2))).reverse
      with _ | v <;> simp [h, dictLookup]

/-- C9 witness: the theorem applied to a concrete response in which the
key `S_1` appears twice. -/
theorem c9_witness :
    ('?' ∉ "update".toList) ∧
    ∃ vals,
      parse_api_response
          ("update".toList ++ '?' :: encodeChunks
            ([("S_1".toList, "1".toList), ("S_2".toList, "2".toList),
              ("S_1".toList, "3".toList)].map (fun s => s.1 ++ '=' :: s.2))) =
        some ⟨"update".toList, vals⟩ ∧
      vals.map Prod.fst = firstOccur
        ([("S_1".toList, "1".toList), ("S_2".toList, "2".toList),
          ("S_1".toList, "3".toList)].map (fun s => pyStrip s.1)) ∧
      ∀ k, dictLookup k vals =
        dictLookup k ([("S_1".toList, "1".toList), ("S_2".toList, "2".toList),
          ("S_1".toList, "3".toList)].map
            (fun s => (pyStrip s.1, pyStrip s.2))).reverse :=
  ⟨by decide, c9_duplicate_keys_last_wins "update".toList
    [("S_1".toList, "1".toList), ("S_2".toList, "2".toList),
      ("S_1".toList, "3".toList)] (by decide) (by decide)⟩

/-- C10: the decoder succeeds exactly on inputs containing a question
mark; on any other input it raises an error that is none of the client's
typed errors (`unpackValueError`, the bare `ValueError` of the tuple
unpacking), which `_request` does not catch. -/
theorem c10_decoder_totality :
    (∀ t : List Char, (∃ r, parse_api_response t = some r) ↔ '?' ∈ t) ∧
    (∀ (path : String) (params : List String) (body : List Char)
        (tail : List TransportOutcome) (log : List Request), '?' ∉ body →
        (requestStep path params ⟨.success body :: tail, log⟩).1 =
          .error .unpackValueError) := by
  constructor
  · intro t
    constructor
    · rintro ⟨r, hr⟩
      by_contra hq
      unfold parse_api_response at hr
      rw [splitFirst_eq_none.mpr hq] at hr
      exact Option.noConfusion hr
    · intro hq
      rcases hsome : splitFirst '?' t with _ | pr
      · exact absurd (splitFirst_eq_none.mp hsome) (by simpa using hq)
      · exact ⟨⟨pr.1, parseBody pr.2⟩, by unfold parse_api_response; rw [hsome]⟩
  · intro path params body tail log hq
    have hnone : parse_api_response body = none := by
      unfold parse_api_response
      rw [splitFirst_eq_none.mpr hq]
    simp [requestStep, hnone]

/-- C10 witness: the theorem applied to a body without a question mark. -/
theorem c10_witness :
    ('?' ∉ "garbage".toList) ∧
    (requestStep "update" [] ⟨[.success "garbage".toList], []⟩).1 =
      .error .unpackValueError :=
  ⟨by decide,
    c10_decoder_totality.2 "update" [] "garbage".toList [] [] (by decide)⟩

/-- C1 (the code against the claim): for an update request whose transport
outcome is an HTTP 500 — a non-404 HTTP failure — `_update_values` does
not propagate the `OumanClientCommunicationError`; the `except` block
swallows it and the function returns the unassigned local `response`,
raising `UnboundLocalError`.  The underlying `_request` failure really is
the HTTP-500 communication error, exactly one update request is issued
(no retry and no login), yet the result is no communication error at
all. -/
theorem c1_non404_http_error_swallowed :
    (requestStep "update" ["S_92_85=50"] ⟨[.httpStatus 500], []⟩).1 =
      .error (.commError (.httpResponse 500) (commHttpMsg 500)) ∧
    updateValuesStep defaultCfg [("S_92_85", "50")] ⟨[.httpStatus 500], []⟩ =
      (.error .unboundLocal, ⟨[], [⟨"update", ["S_92_85=50"]⟩]⟩) ∧
    (∀ cause msg, PyError.unboundLocal ≠ PyError.commError cause msg) := by
  refine ⟨rfl, rfl, ?_⟩
  intro cause msg
  exact fun h => PyError.noConfusion h

/-- C8: with a transport reply whose body decodes, login succeeds exactly
when the decoded response binds result to ok; a result=error field raises
the authentication error; any other decoded shape raises the generic
client error; and a transport timeout raises the communication error. -/
theorem c8_login_result_classification
    (cfg : ClientConfig) (body : List Char) (resp : OumanResponse)
    (tail : List TransportOutcome) (log : List Request)
    (hparse : parse_api_response body = some resp) :
    ((loginStep cfg ⟨.success body :: tail, log⟩).1 = .ok resp ↔
      dictLookup "result".toList resp.values = some "ok".toList) ∧
    (dictLookup "result".toList resp.values = some "error".toList →
      (loginStep cfg ⟨.success body :: tail, log⟩).1 =
        .error (.authError loginAuthMsg)) ∧
    (dictLookup "result".toList resp.values ≠ some "ok".toList →
      dictLookup "result".toList resp.values ≠ some "error".toList →
      (loginStep cfg ⟨.success body :: tail, log⟩).1 =
        .error (.clientError loginUnexpectedMsg)) ∧
    (loginStep cfg ⟨.timedOut :: tail, log⟩).1 =
      .error (.commError .timedOut commTimeoutMsg) := by
  have hreq : requestStep "login" ["uid=" ++ cfg.username, "pwd=" ++ cfg.password]
      ⟨.success body :: tail, log⟩ =
      (.ok resp, ⟨tail, log ++
        [⟨"login", ["uid=" ++ cfg.username, "pwd=" ++ cfg.password]⟩]⟩) := by
    simp [requestStep, hparse]
  have hred : loginStep cfg ⟨.success body :: tail, log⟩ =
      (if dictLookup "result".toList resp.values = some "ok".toList then
        (.ok resp, ⟨tail, log ++
          [⟨"login", ["uid=" ++ cfg.username, "pwd=" ++ cfg.password]⟩]⟩)
      else if dictLookup "result".toList resp.values = some "error".toList then
        (.error (.authError loginAuthMsg), ⟨tail, log ++
          [⟨"login", ["uid=" ++ cfg.username, "pwd=" ++ cfg.password]⟩]⟩)
      else
        (.error (.clientError loginUnexpectedMsg), ⟨tail, log ++
          [⟨"login", ["uid=" ++ cfg.username, "pwd=" ++ cfg.password]⟩]⟩)) := by
    unfold loginStep
    rw [hreq]
  refine ⟨?_, ?_, ?_, ?_⟩
  · by_cases hok : dictLookup "result".toList resp.values = some "ok".toList
    · rw [hred, if_pos hok]
      exact ⟨fun _ => hok, fun _ => rfl⟩
    · by_cases herr : dictLookup "result".toList resp.values = some "error".toList
      · rw [hred, if_neg hok, if_pos herr]
        exact ⟨fun h => Except.noConfusion h, fun h => False.elim (hok h)⟩
      · rw [hred, if_neg hok, if_neg herr]
        exact ⟨fun h => Except.noConfusion h, fun h => False.elim (hok h)⟩
  · intro herr
    have hok : dictLookup "result".toList resp.values ≠ some "ok".toList := by
      rw [herr]; exact (by decide)
    rw [hred, if_neg hok, if_pos herr]
  · intro hok herr
    rw [hred, if_neg hok, if_neg herr]
  · simp [loginStep, requestStep]

/-- C8 witness: the theorem applied to the three concrete scripted
replies of the end-to-end scenario. -/
theorem c8_witness :
    ((loginStep defaultCfg ⟨[.success "login?result=ok;\x00".toList], []⟩).1 =
      .ok ⟨"login".toList, [("result".toList, "ok".toList)]⟩) ∧
    ((loginStep defaultCfg ⟨[.success "login?result=error;\x00".toList], []⟩).1 =
      .error (.authError loginAuthMsg)) ∧
    ((loginStep defaultCfg ⟨[.timedOut], []⟩).1 =
      .error (.commError .timedOut commTimeoutMsg)) :=
  ⟨((c8_login_result_classification defaultCfg "login?result=ok;\x00".toList
      ⟨"login".toList, [("result".toList, "ok".toList)]⟩ [] [] (by decide)).1).mpr
      (by decide),
    (c8_login_result_classification defaultCfg "login?result=error;\x00".toList
      ⟨"login".toList, [("result".toList, "error".toList)]⟩ [] []
      (by decide)).2.1 (by decide),
    (c8_login_result_classification defaultCfg "login?x=y;\x00".toList
      ⟨"login".toList, [("x".toList, "y".toList)]⟩ [] [] (by decide)).2.2.2⟩

/-! Lemmas about the request log and about which errors each engine
operation can produce. -/

theorem requestStep_log (p : String) (ps : List String) (st : ClientState) :
    (requestStep p ps st).2.log = st.log ++ [⟨p, ps⟩] := by
  obtain ⟨script, log⟩ := st
  rcases script with _ | ⟨o, rest⟩
  · rfl
  · rcases o with body | _ | s | _
    · rcases h : parse_api_response body with _ | r <;> simp [requestStep, h]
    · rfl
    · rfl
    · rfl

theorem requestStep_no_valueError (p : String) (ps : List String)
    (st : ClientState) (m : String) :
    (requestStep p ps st).1 ≠ .error (.valueError m) := by
  obtain ⟨script, log⟩ := st
  rcases script with _ | ⟨o, rest⟩
  · simp [requestStep]
  · rcases o with body | _ | s | _
    · rcases h : parse_api_response body with _ | r <;> simp [requestStep, h]
    · simp [requestStep]
    · simp [requestStep]
    · simp [requestStep]

theorem loginStep_log (cfg : ClientConfig) (st : ClientState) :
    (loginStep cfg st).2.log = st.log ++
      [⟨"login", ["uid=" ++ cfg.username, "pwd=" ++ cfg.password]⟩] := by
  unfold loginStep
  rcases h : requestStep "login" ["uid=" ++ cfg.username, "pwd=" ++ cfg.password] st
    with ⟨res, st1⟩
  have hlog := requestStep_log "login"
    ["uid=" ++ cfg.username, "pwd=" ++ cfg.password] st
  rw [h] at hlog
  rcases res with e | r
  · exact hlog
  · dsimp only
    split
    · exact hlog
    · split <;> exact hlog

theorem loginStep_no_valueError (cfg : ClientConfig) (st : ClientState)
    (m : String) : (loginStep cfg st).1 ≠ .error (.valueError m) := by
  unfold loginStep
  rcases h : requestStep "login" ["uid=" ++ cfg.username, "pwd=" ++ cfg.password] st
    with ⟨res, st1⟩
  have hno := requestStep_no_valueError "login"
    ["uid=" ++ cfg.username, "pwd=" ++ cfg.password] st m
  rw [h] at hno
  rcases res with e | r
  · exact hno
  · dsimp only
    split
    · simp
    · split <;> simp

theorem updateValues_shape (cfg : ClientConfig) (kvs : List (String × String))
    (st : ClientState) :
    (∀ m, (updateValuesStep cfg kvs st).1 ≠ .error (.valueError m)) ∧
    ∃ rest, (updateValuesStep cfg kvs st).2.log =
      st.log ++ ⟨"update", kvs.map (fun kv => kv.1 ++ "=" ++ kv.2)⟩ :: rest := by
  unfold updateValuesStep
  rcases h : requestStep "update" (kvs.map (fun kv => kv.1 ++ "=" ++ kv.2)) st
    with ⟨res, st1⟩
  have hlog := requestStep_log "update" (kvs.map (fun kv => kv.1 ++ "=" ++ kv.2)) st
  rw [h] at hlog
  have hlog' : st1.log =
      st.log ++ [⟨"update", kvs.map (fun kv => kv.1 ++ "=" ++ kv.2)⟩] := hlog
  simp only [h]
  rcases res with e | r
  · rcases e with ⟨cause, msg⟩ | msg | msg | msg | msg | _ | _
    · rcases cause with _ | status | _
      · refine ⟨fun m => ?_, ⟨[], ?_⟩⟩ <;> simp [hlog']
      · by_cases hs : status = 404
        · subst hs
          dsimp only
          rw [if_pos rfl]
          rcases h2 : loginStep cfg st1 with ⟨res2, st2⟩
          have hlog2 := loginStep_log cfg st1
          rw [h2] at hlog2
          have hlog2' : st2.log = st1.log ++
              [⟨"login", ["uid=" ++ cfg.username, "pwd=" ++ cfg.password]⟩] := hlog2
          rcases res2 with e2 | r2
          · refine ⟨fun m hm => ?_,
              ⟨[⟨"login", ["uid=" ++ cfg.username, "pwd=" ++ cfg.password]⟩], ?_⟩⟩
            · have := loginStep_no_valueError cfg st1 m
              rw [h2] at this
              exact this hm
            · simp [hlog2', hlog']
          · refine ⟨fun m => requestStep_no_valueError "update" _ st2 m,
              ⟨[⟨"login", ["uid=" ++ cfg.username, "pwd=" ++ cfg.password]⟩,
                ⟨"update", kvs.map (fun kv => kv.1 ++ "=" ++ kv.2)⟩], ?_⟩⟩
            rw [requestStep_log, hlog2', hlog']
            simp
        · dsimp only
          rw [if_neg hs]
          refine ⟨fun m => ?_, ⟨[], ?_⟩⟩ <;> simp [hlog']
      · refine ⟨fun m => ?_, ⟨[], ?_⟩⟩ <;> simp [hlog']
    · refine ⟨fun m => ?_, ⟨[], ?_⟩⟩ <;> simp [hlog']
    · refine ⟨fun m => ?_, ⟨[], ?_⟩⟩ <;> simp [hlog']
    · refine ⟨fun m hm => ?_, ⟨[], ?_⟩⟩
      · have := requestStep_no_valueError "update"
          (kvs.map (fun kv => kv.1 ++ "=" ++ kv.2)) st msg
        rw [h] at this
        exact this rfl
      · simp [hlog']
    · refine ⟨fun m => ?_, ⟨[], ?_⟩⟩ <;> simp [hlog']
    · refine ⟨fun m => ?_, ⟨[], ?_⟩⟩ <;> simp [hlog']
    · refine ⟨fun m => ?_, ⟨[], ?_⟩⟩ <;> simp [hlog']
  · refine ⟨fun m => ?_, ⟨[], ?_⟩⟩ <;> simp [hlog']

theorem Dec.numEq_le {a b : Dec} (h : a.numEq b = true) :
    a.numLe b = true ∧ b.numLe a = true := by
  simp only [Dec.numEq, decide_eq_true_eq] at h
  constructor <;> simp only [Dec.numLe, decide_eq_true_eq] <;> omega

theorem Dec.numLe_trans {a b c : Dec} (h1 : a.numLe b = true)
    (h2 : b.numLe c = true) : a.numLe c = true := by
  simp only [Dec.numLe, decide_eq_true_eq] at h1 h2 ⊢
  have hb : (0 : ℤ) < 10 ^ b.fracDigits := pow_pos (by norm_num) _
  have h1' := mul_le_mul_of_nonneg_right h1
    (pow_nonneg (by norm_num : (0:ℤ) ≤ 10) c.fracDigits)
  have h2' := mul_le_mul_of_nonneg_right h2
    (pow_nonneg (by norm_num : (0:ℤ) ≤ 10) a.fracDigits)
  refine le_of_mul_le_mul_right ?_ hb
  calc a.mant * 10 ^ c.fracDigits * 10 ^ b.fracDigits
      = a.mant * 10 ^ b.fracDigits * 10 ^ c.fracDigits := by ring
    _ ≤ b.mant * 10 ^ a.fracDigits * 10 ^ c.fracDigits := h1'
    _ = b.mant * 10 ^ c.fracDigits * 10 ^ a.fracDigits := by ring
    _ ≤ c.mant * 10 ^ b.fracDigits * 10 ^ a.fracDigits := h2'
    _ = c.mant * 10 ^ a.fracDigits * 10 ^ b.fracDigits := by ring

theorem intPostCheck_no_valueError (ep : IntControlOumanEndpoint) (v : ℤ)
    (r : OumanResponse) (m : String) :
    intPostCheck ep v r ≠ some (.valueError m) := by
  unfold intPostCheck
  split
  · simp
  · split
    · simp
    · split
      · simp
      · split <;> simp

theorem floatPostCheck_no_valueError (ep : FloatControlOumanEndpoint)
    (rounded : Dec) (r : OumanResponse) (m : String) :
    floatPostCheck ep rounded r ≠ some (.valueError m) := by
  unfold floatPostCheck
  split
  · simp
  · split
    · simp
    · split
      · simp
      · split <;> simp

/-- C3: for every integer-control and float-control endpoint, a value
strictly below `min_val` or strictly above `max_val` makes the set
operation fail with the ValueError of the bounds check while the client
state is unchanged (no transport request is issued); a value equal to
`min_val` or to `max_val` passes validation: no ValueError can be the
result and the update write is issued. -/
theorem c3_set_bounds (cfg : ClientConfig) (st : ClientState) :
    (∀ (ep : IntControlOumanEndpoint) (v : ℤ),
      (v < ep.min_val ∨ ep.max_val < v) →
        set_int_endpoint cfg ep v st =
          (.error (.valueError (outOfBoundsMsg ep.name)), st)) ∧
    (∀ (ep : FloatControlOumanEndpoint) (w : Dec),
      (Dec.numLe ep.min_val w = false ∨ Dec.numLe w ep.max_val = false) →
        set_float_endpoint cfg ep w st =
          (.error (.valueError (outOfBoundsMsg ep.name)), st)) ∧
    (∀ (ep : IntControlOumanEndpoint) (v : ℤ),
      (v = ep.min_val ∨ v = ep.max_val) → ep.min_val ≤ ep.max_val →
        (∀ m, (set_int_endpoint cfg ep v st).1 ≠ .error (.valueError m)) ∧
        ∃ rest, (set_int_endpoint cfg ep v st).2.log =
          st.log ++ ⟨"update", [ep.control_endpoint_id ++ "=" ++ toString v]⟩ :: rest) ∧
    (∀ (ep : FloatControlOumanEndpoint) (w : Dec),
      (Dec.numEq w ep.min_val = true ∨ Dec.numEq w ep.max_val = true) →
      Dec.numLe ep.min_val ep.max_val = true →
        (∀ m, (set_float_endpoint cfg ep w st).1 ≠ .error (.valueError m)) ∧
        ∃ rest, (set_float_endpoint cfg ep w st).2.log =
          st.log ++ ⟨"update",
            [ep.control_endpoint_id ++ "=" ++ tenthRepr (pyRound1 w).mant]⟩ :: rest) := by
  refine ⟨?_, ?_, ?_, ?_⟩
  · intro ep v h
    have hcond : ¬ (ep.min_val ≤ v ∧ v ≤ ep.max_val) := by omega
    unfold set_int_endpoint
    rw [if_pos hcond]
  · intro ep w h
    have hcond : ¬ ((Dec.numLe ep.min_val w = true) ∧ (Dec.numLe w ep.max_val = true)) := by
      rcases h with h | h <;> simp [h]
    unfold set_float_endpoint
    rw [if_pos hcond]
  · intro ep v hv hminmax
    have hcond : ep.min_val ≤ v ∧ v ≤ ep.max_val := by omega
    unfold set_int_endpoint
    rw [if_neg (not_not_intro hcond)]
    rcases hu : updateValuesStep cfg
        (pyDictInsert ep.control_endpoint_id (toString v) []) st with ⟨resu, stu⟩
    have hshape := updateValues_shape cfg
      (pyDictInsert ep.control_endpoint_id (toString v) []) st
    rw [hu] at hshape
    obtain ⟨hnoval, rest, hrest⟩ := hshape
    rcases resu with e | result
    · exact ⟨fun m hm => (hnoval m) hm, ⟨rest, hrest⟩⟩
    · rcases hc : intPostCheck ep v result with _ | e
      · exact ⟨fun m => by simp [hc], ⟨rest, by simpa [hc] using hrest⟩⟩
      · refine ⟨fun m hm => ?_, ⟨rest, by simpa [hc] using hrest⟩⟩
        simp only [hc] at hm
        have he : e = .valueError m := by
          have := Except.error.inj hm
          exact this
        rw [he] at hc
        exact intPostCheck_no_valueError ep v result m hc
  · intro ep w hw hminmax
    have h1 : Dec.numLe ep.min_val w = true := by
      rcases hw with h | h
      · exact (Dec.numEq_le h).2
      · exact Dec.numLe_trans hminmax (Dec.numEq_le h).2
    have h2 : Dec.numLe w ep.max_val = true := by
      rcases hw with h | h
      · exact Dec.numLe_trans (Dec.numEq_le h).1 hminmax
      · exact (Dec.numEq_le h).1
    have hcond : (Dec.numLe ep.min_val w = true) ∧ (Dec.numLe w ep.max_val = true) :=
      ⟨h1, h2⟩
    unfold set_float_endpoint
    rw [if_neg (not_not_intro hcond)]
    rcases hu : updateValuesStep cfg
        (pyDictInsert ep.control_endpoint_id (tenthRepr (pyRound1 w).mant) []) st
      with ⟨resu, stu⟩
    have hshape := updateValues_shape cfg
      (pyDictInsert ep.control_endpoint_id (tenthRepr (pyRound1 w).mant) []) st
    rw [hu] at hshape
    obtain ⟨hnoval, rest, hrest⟩ := hshape
    rcases resu with e | result
    · exact ⟨fun m hm => (hnoval m) hm, ⟨rest, hrest⟩⟩
    · rcases hc : floatPostCheck ep (pyRound1 w) result with _ | e
      · exact ⟨fun m => by simp [hc], ⟨rest, by simpa [hc] using hrest⟩⟩
      · refine ⟨fun m hm => ?_, ⟨rest, by simpa [hc] using hrest⟩⟩
        simp only [hc] at hm
        have he : e = .valueError m := Except.error.inj hm
        rw [he] at hc
        exact floatPostCheck_no_valueError ep (pyRound1 w) result m hc

/-- C3 witness: the theorem applied to the valve-position setpoint
endpoint (bounds 0 to 100) and the room-temperature fine-tuning endpoint
(bounds -4.0 to 4.0) at out-of-bounds and boundary values. -/
theorem c3_witness :
    (set_int_endpoint defaultCfg valvePositionEp (-1) ⟨[], []⟩ =
      (.error (.valueError (outOfBoundsMsg valvePositionEp.name)), ⟨[], []⟩)) ∧
    (set_float_endpoint defaultCfg roomFineTuningEp ⟨50, 1⟩ ⟨[], []⟩ =
      (.error (.valueError (outOfBoundsMsg roomFineTuningEp.name)), ⟨[], []⟩)) ∧
    (∃ rest, (set_int_endpoint defaultCfg valvePositionEp 0 ⟨[], []⟩).2.log =
      (⟨[], []⟩ : ClientState).log ++
        ⟨"update", [valvePositionEp.control_endpoint_id ++ "=" ++ toString (0 : ℤ)]⟩ :: rest) ∧
    (∃ rest, (set_float_endpoint defaultCfg roomFineTuningEp ⟨-40, 1⟩ ⟨[], []⟩).2.log =
      (⟨[], []⟩ : ClientState).log ++
        ⟨"update", [roomFineTuningEp.control_endpoint_id ++ "=" ++
          tenthRepr (pyRound1 ⟨-40, 1⟩).mant]⟩ :: rest) :=
  ⟨(c3_set_bounds defaultCfg ⟨[], []⟩).1 valvePositionEp (-1) (by decide),
    (c3_set_bounds defaultCfg ⟨[], []⟩).2.1 roomFineTuningEp ⟨50, 1⟩ (by decide),
    ((c3_set_bounds defaultCfg ⟨[], []⟩).2.2.1 valvePositionEp 0
      (Or.inl (by decide)) (by decide)).2,
    ((c3_set_bounds defaultCfg ⟨[], []⟩).2.2.2 roomFineTuningEp ⟨-40, 1⟩
      (Or.inl (by decide)) (by decide)).2⟩

theorem updateValues_success (cfg : ClientConfig) (kvs : List (String × String))
    {body : List Char} {r : OumanResponse} (tail : List TransportOutcome)
    (log : List Request) (hparse : parse_api_response body = some r) :
    updateValuesStep cfg kvs ⟨.success body :: tail, log⟩ =
      (.ok r, ⟨tail, log ++
        [⟨"update", kvs.map (fun kv => kv.1 ++ "=" ++ kv.2)⟩]⟩) := by
  have hreq : requestStep "update" (kvs.map (fun kv => kv.1 ++ "=" ++ kv.2))
      ⟨.success body :: tail, log⟩ =
      (.ok r, ⟨tail, log ++
        [⟨"update", kvs.map (fun kv => kv.1 ++ "=" ++ kv.2)⟩]⟩) := by
    simp [requestStep, hparse]
  unfold updateValuesStep
  simp only [hreq]

theorem floatPostCheck_none_iff (ep : FloatControlOumanEndpoint)
    (rounded : Dec) (result : OumanResponse) :
    floatPostCheck ep rounded result = none ↔
      ∃ s q, dictLookup ep.sensor_endpoint_id.toList result.values = some s ∧
        pyFloatParse s = some q ∧ q.numEq rounded = true := by
  unfold floatPostCheck
  rcases h : dictLookup ep.sensor_endpoint_id.toList result.values with _ | rv
  · simp [h]
  · dsimp only
    by_cases he : rv.isEmpty
    · have hrv : rv = [] := List.isEmpty_iff.mp he
      subst hrv
      simp [he, show pyFloatParse [] = none from rfl]
    · rcases hp : pyFloatParse rv with _ | q
      · simp [he, hp]
      · by_cases hq : q.numEq rounded = true
        · simp [he, hp, hq]
        · have hqf : q.numEq rounded = false := by
            rcases hb : q.numEq rounded with _ | _
            · rfl
            · exact absurd hb hq
          simp [he, hp, hqf]

/-- C4: for every float-control endpoint and every in-bounds value, the
single update parameter transmitted is the control ID bound to the
one-decimal rounding of the value (input 1.55 goes out as 1.6, per the
witness), and with a decoded device reply the write succeeds exactly when
the reply's value for the sensor ID parses as a number equal to the
rounded value. -/
theorem c4_float_rounded_write (cfg : ClientConfig)
    (ep : FloatControlOumanEndpoint) (w : Dec) (st : ClientState)
    (hbounds : Dec.numLe ep.min_val w = true ∧ Dec.numLe w ep.max_val = true) :
    (∃ rest, (set_float_endpoint cfg ep w st).2.log =
      st.log ++ ⟨"update",
        [ep.control_endpoint_id ++ "=" ++ tenthRepr (pyRound1 w).mant]⟩ :: rest) ∧
    (∀ (body : List Char) (result : OumanResponse)
        (tail : List TransportOutcome) (log : List Request),
      parse_api_response body = some result →
      ((set_float_endpoint cfg ep w ⟨.success body :: tail, log⟩).1 = .ok result ↔
        ∃ s q, dictLookup ep.sensor_endpoint_id.toList result.values = some s ∧
          pyFloatParse s = some q ∧ q.numEq (pyRound1 w) = true)) := by
  constructor
  · unfold set_float_endpoint
    rw [if_neg (not_not_intro hbounds)]
    rcases hu : updateValuesStep cfg
        (pyDictInsert ep.control_endpoint_id (tenthRepr (pyRound1 w).mant) []) st
      with ⟨resu, stu⟩
    have hshape := updateValues_shape cfg
      (pyDictInsert ep.control_endpoint_id (tenthRepr (pyRound1 w).mant) []) st
    rw [hu] at hshape
    obtain ⟨_, rest, hrest⟩ := hshape
    rcases resu with e | result
    · exact ⟨rest, hrest⟩
    · rcases hc : floatPostCheck ep (pyRound1 w) result with _ | e
      · exact ⟨rest, by simpa [hc] using hrest⟩
      · exact ⟨rest, by simpa [hc] using hrest⟩
  · intro body result tail log hparse
    have hiff := floatPostCheck_none_iff ep (pyRound1 w) result
    unfold set_float_endpoint
    rw [if_neg (not_not_intro hbounds)]
    rw [updateValues_success cfg _ tail log hparse]
    dsimp only
    rcases hc : floatPostCheck ep (pyRound1 w) result with _ | e
    · exact iff_of_true rfl (hiff.mp hc)
    · refine iff_of_false (by simp) (fun hr => ?_)
      rw [hiff.mpr hr] at hc
      exact Option.noConfusion hc

/-- C4 witness: the theorem applied to the fine-tuning endpoint at input
1.55, transmitted and confirmed as 1.6. -/
theorem c4_witness :
    tenthRepr (pyRound1 ⟨155, 2⟩).mant = "1.6" ∧
    (set_float_endpoint defaultCfg roomFineTuningEp ⟨155, 2⟩
        ⟨[.success "update?S_134_85=1.6;\x00".toList], []⟩).1 =
      .ok ⟨"update".toList, [("S_134_85".toList, "1.6".toList)]⟩ := by
  refine ⟨by decide, ?_⟩
  exact ((c4_float_rounded_write defaultCfg roomFineTuningEp ⟨155, 2⟩ ⟨[], []⟩
      ⟨by decide, by decide⟩).2
    "update?S_134_85=1.6;\x00".toList
    ⟨"update".toList, [("S_134_85".toList, "1.6".toList)]⟩ [] [] (by decide)).mpr
    ⟨"1.6".toList, ⟨16, 1⟩, by decide, by decide, by decide⟩

theorem pyDictInsert_notmem {κ ν : Type} [DecidableEq κ] {k : κ} (v : ν) :
    ∀ {m : List (κ × ν)}, k ∉ m.map Prod.fst →
      pyDictInsert k v m = m ++ [(k, v)] := by
  intro m
  induction m with
  | nil => intro _; rfl
  | cons p rest ih =>
      intro h
      obtain ⟨a, b⟩ := p
      have ha : a ≠ k := fun hak => h (by simp [hak])
      have hrest : k ∉ rest.map Prod.fst := fun hm => h (by simp [hm])
      simp [pyDictInsert, ha, ih hrest]

theorem foldl_pyDictInsert_const (v : String) :
    ∀ (ids : List String) (m : List (String × String)), ids.Nodup →
      (∀ i ∈ ids, i ∉ m.map Prod.fst) →
      ids.foldl (fun m i => pyDictInsert i v m) m =
        m ++ ids.map (fun i => (i, v)) := by
  intro ids
  induction ids with
  | nil => intro m _ _; simp
  | cons i rest ih =>
      intro m hnd hdis
      have hmem : i ∉ m.map Prod.fst := hdis i (List.mem_cons_self i rest)
      have hnd' := (List.nodup_cons.mp hnd).2
      have hnotin := (List.nodup_cons.mp hnd).1
      simp only [List.foldl_cons]
      rw [pyDictInsert_notmem v hmem, ih (m ++ [(i, v)]) hnd']
      · simp
      · intro j hj
        rw [List.map_append]
        intro hmm
        rcases List.mem_append.mp hmm with hm1 | hm2
        · exact hdis j (List.mem_cons_of_mem i hj) hm1
        · simp at hm2
          exact hnotin (hm2 ▸ hj)

/-- C5 (amended): for every enum-control endpoint (each declares exactly
one response endpoint ID, and pairwise distinct control IDs), a write
sends every control ID bound to the written value in one update request;
then, on a decoded reply: an absent response ID — or one bound to an
empty string, the walrus `if not` test treats both alike — fails with the
protocol error whose message mentions "missing"; a present non-empty
value different from the written one fails with the protocol error whose
message mentions "does not match"; a present value equal to the (non
empty) written value succeeds. -/
theorem c5_enum_write_checks (cfg : ClientConfig)
    (ep : EnumControlOumanEndpoint) (value : ControlEnumValue) (rid : String)
    (st : ClientState)
    (hty : value.ty = ep.enum_type)
    (hids : ep.control_endpoint_ids.Nodup)
    (hresp : ep.response_endpoint_ids = [rid]) :
    (∃ rest, (set_enum_endpoint cfg ep value st).2.log =
      st.log ++ ⟨"update",
        ep.control_endpoint_ids.map (fun i => i ++ "=" ++ value.val)⟩ :: rest) ∧
    (∀ (body : List Char) (result : OumanResponse)
        (tail : List TransportOutcome) (log : List Request),
      parse_api_response body = some result →
      ((dictLookup rid.toList result.values = none ∨
          dictLookup rid.toList result.values = some []) →
        (set_enum_endpoint cfg ep value ⟨.success body :: tail, log⟩).1 =
          .error (.clientError enumMissingMsg)) ∧
      (∀ s, dictLookup rid.toList result.values = some s → s ≠ [] →
        s ≠ value.val.toList →
        (set_enum_endpoint cfg ep value ⟨.success body :: tail, log⟩).1 =
          .error (.clientError enumMismatchMsg)) ∧
      (dictLookup rid.toList result.values = some value.val.toList →
        value.val.toList ≠ [] →
        (set_enum_endpoint cfg ep value ⟨.success body :: tail, log⟩).1 =
          .ok result)) ∧
    strMentions "missing" enumMissingMsg = true ∧
    strMentions "does not match" enumMismatchMsg = true := by
  have hnty : ¬ value.ty ≠ ep.enum_type := not_not_intro hty
  have hparams : (ep.control_endpoint_ids.foldl
      (fun m i => pyDictInsert i value.val m) []) =
      ep.control_endpoint_ids.map (fun i => (i, value.val)) := by
    have := foldl_pyDictInsert_const value.val ep.control_endpoint_ids [] hids
      (by simp)
    simpa using this
  refine ⟨?_, ?_, by decide, by decide⟩
  · unfold set_enum_endpoint
    rw [if_neg hnty]
    rcases hu : updateValuesStep cfg
        (ep.control_endpoint_ids.foldl (fun m i => pyDictInsert i value.val m) []) st
      with ⟨resu, stu⟩
    have hshape := updateValues_shape cfg
      (ep.control_endpoint_ids.foldl (fun m i => pyDictInsert i value.val m) []) st
    rw [hu] at hshape
    obtain ⟨_, rest, hrest⟩ := hshape
    rw [hparams, List.map_map] at hrest
    have hfmt : ((fun kv : String × String => kv.1 ++ "=" ++ kv.2) ∘
        (fun i => (i, value.val))) = fun i => i ++ "=" ++ value.val := rfl
    rw [hfmt] at hrest
    rcases resu with e | result
    · exact ⟨rest, hrest⟩
    · rcases hc : enumPostCheck ep value result with _ | e
      · exact ⟨rest, by simpa [hc] using hrest⟩
      · exact ⟨rest, by simpa [hc] using hrest⟩
  · intro body result tail log hparse
    unfold set_enum_endpoint
    rw [if_neg hnty]
    rw [updateValues_success cfg _ tail log hparse]
    dsimp only
    refine ⟨?_, ?_, ?_⟩
    · intro hmiss
      have hpc : enumPostCheck ep value result =
          some (.clientError enumMissingMsg) := by
        unfold enumPostCheck
        rw [hresp]
        unfold enumRespScan
        rcases hmiss with hl | hl
        · rw [hl]
        · rw [hl]
          rfl
      rw [hpc]
    · intro sv hl hne hnv
      have hie : sv.isEmpty = false := by
        rcases sv with _ | ⟨c, cs⟩
        · exact absurd rfl hne
        · rfl
      have hnem : ¬ (sv.isEmpty = true) := by
        rw [hie]
        exact fun h => Bool.noConfusion h
      have hpc : enumPostCheck ep value result =
          some (.clientError enumMismatchMsg) := by
        unfold enumPostCheck
        rw [hresp]
        unfold enumRespScan
        rw [hl]
        dsimp only
        rw [if_neg hnem]
        rw [show enumRespScan result [] = Except.ok none from rfl]
        dsimp only
        rw [if_pos hnv]
      rw [hpc]
    · intro hl hne
      have hie : (value.val.toList).isEmpty = false := by
        rcases hv : value.val.toList with _ | ⟨c, cs⟩
        · exact absurd hv hne
        · rfl
      have hnem : ¬ ((value.val.toList).isEmpty = true) := by
        rw [hie]
        exact fun h => Bool.noConfusion h
      have hpc : enumPostCheck ep value result = none := by
        unfold enumPostCheck
        rw [hresp]
        unfold enumRespScan
        rw [hl]
        dsimp only
        rw [if_neg hnem]
        rw [show enumRespScan result [] = Except.ok none from rfl]
        dsimp only
        rw [if_neg (not_not_intro rfl)]
      rw [hpc]

/-- C5 counterexample: the home/away endpoint's single declared response
ID is present in the decoded response but bound to the empty string, and
the returned value differs from the written value 0 — the claim then
demands the "does not match" protocol error, but the code raises the
"missing" one (the walrus `if not` test treats an empty value as
absent). -/
theorem c5_counterexample :
    (parse_api_response "update?S_222_85=;\x00".toList).map
        (fun r => dictLookup "S_222_85".toList r.values) = some (some []) ∧
    homeAwayEp.response_endpoint_ids = ["S_222_85"] ∧
    ([] : List Char) ≠ "0".toList ∧
    (set_enum_endpoint defaultCfg homeAwayEp ⟨.homeAwayControl, "0"⟩
        ⟨[.success "update?S_222_85=;\x00".toList], []⟩).1 =
      .error (.clientError enumMissingMsg) ∧
    strMentions "does not match" enumMissingMsg = false :=
  ⟨by decide, rfl, by decide, rfl, by decide⟩

/-- C5 witness: the theorem applied to the home/away endpoint for a
successful write and for a mismatched reply. -/
theorem c5_witness :
    ((set_enum_endpoint defaultCfg homeAwayEp ⟨.homeAwayControl, "0"⟩
        ⟨[.success "update?S_222_85=0;\x00".toList], []⟩).1 =
      .ok ⟨"update".toList, [("S_222_85".toList, "0".toList)]⟩) ∧
    ((set_enum_endpoint defaultCfg homeAwayEp ⟨.homeAwayControl, "0"⟩
        ⟨[.success "update?S_222_85=1;\x00".toList], []⟩).1 =
      .error (.clientError enumMismatchMsg)) := by
  constructor
  · exact ((c5_enum_write_checks defaultCfg homeAwayEp ⟨.homeAwayControl, "0"⟩
      "S_222_85" ⟨[], []⟩ rfl (by decide) rfl).2.1
      "update?S_222_85=0;\x00".toList
      ⟨"update".toList, [("S_222_85".toList, "0".toList)]⟩ [] []
      (by decide)).2.2 (by decide) (by decide)
  · exact ((c5_enum_write_checks defaultCfg homeAwayEp ⟨.homeAwayControl, "0"⟩
      "S_222_85" ⟨[], []⟩ rfl (by decide) rfl).2.1
      "update?S_222_85=1;\x00".toList
      ⟨"update".toList, [("S_222_85".toList, "1".toList)]⟩ [] []
      (by decide)).2.1 "1".toList (by decide) (by decide) (by decide)

theorem framePass_scan (frame : List (String × AnyEndpoint)) :
    ∀ (seen : List String) (rest : List (String × AnyEndpoint)),
      scanDedup seen (frame ++ rest) =
        (framePass seen frame).1 ++ scanDedup (framePass seen frame).2 rest := by
  induction frame with
  | nil => intro seen rest; simp [framePass]
  | cons p more ih =>
      intro seen rest
      obtain ⟨k, e⟩ := p
      by_cases hk : k ∈ seen
      · simp only [List.cons_append, scanDedup, framePass, if_pos hk]
        exact ih seen rest
      · simp only [List.cons_append, scanDedup, framePass, if_neg hk,
          List.append_eq]
        rw [ih (seen ++ [k]) rest]

theorem iterAux_eq_scan :
    ∀ (frames : List (List (String × AnyEndpoint))) (seen : List String),
      iterEndpointsAux seen frames = scanDedup seen frames.flatten := by
  intro frames
  induction frames with
  | nil => intro seen; rfl
  | cons frame rest ih =>
      intro seen
      show (framePass seen frame).1 ++
          iterEndpointsAux (framePass seen frame).2 rest =
        scanDedup seen (frame :: rest).flatten
      rw [show (frame :: rest).flatten = frame ++ rest.flatten from rfl,
        framePass_scan frame seen rest.flatten, ih]

theorem scanDedup_eq_dedup :
    ∀ (l : List (String × AnyEndpoint)) (seen : List String),
      scanDedup seen l =
        (firstKeyDedup l).filter (fun p => decide (p.1 ∉ seen)) := by
  intro l
  induction l with
  | nil => intro seen; rfl
  | cons p rest ih =>
      intro seen
      obtain ⟨k, e⟩ := p
      by_cases hk : k ∈ seen
      · have hkf : (decide (k ∉ seen)) = false := by simp [hk]
        simp only [scanDedup, if_pos hk, ih, firstKeyDedup, List.filter_cons,
          hkf, Bool.false_eq_true, if_neg, List.filter_filter]
        refine List.filter_congr ?_
        intro a _
        by_cases hak : a.1 = k
        · simp [hak, hk]
        · simp [hak]
      · have hkt : (decide (k ∉ seen)) = true := by simp [hk]
        simp only [scanDedup, if_neg hk, ih, firstKeyDedup, List.filter_cons,
          hkt, if_pos, List.filter_filter]
        congr 1
        refine List.filter_congr ?_
        intro a _
        by_cases hak : a.1 = k
        · simp [hak, hk]
        · simp [hak, List.mem_append]

theorem dictLookup_filter_ne {κ ν : Type} [DecidableEq κ] {k k' : κ}
    (hne : k ≠ k') :
    ∀ l : List (κ × ν),
      dictLookup k (l.filter (fun p => decide (p.1 ≠ k'))) = dictLookup k l := by
  intro l
  induction l with
  | nil => rfl
  | cons p rest ih =>
      obtain ⟨a, b⟩ := p
      simp only [ne_eq, decide_not] at ih
      by_cases hak : a = k'
      · subst hak
        have : ¬ a = k := fun h => hne (h ▸ rfl)
        simp [List.filter_cons, dictLookup, this, ih]
      · by_cases hk : a = k
        · subst hk
          simp [List.filter_cons, hak, dictLookup]
        · simp [List.filter_cons, hak, dictLookup, hk, ih]

theorem lookup_firstKeyDedup {κ ν : Type} [DecidableEq κ] (k : κ) :
    ∀ l : List (κ × ν), dictLookup k (firstKeyDedup l) = dictLookup k l := by
  intro l
  induction l with
  | nil => rfl
  | cons p rest ih =>
      obtain ⟨a, b⟩ := p
      by_cases hk : a = k
      · subst hk
        simp [firstKeyDedup, dictLookup]
      · simp only [firstKeyDedup, dictLookup, if_neg hk]
        rw [dictLookup_filter_ne (fun h => hk h.symm) (firstKeyDedup rest), ih]

theorem keys_firstKeyDedup_nodup {κ ν : Type} [DecidableEq κ] :
    ∀ l : List (κ × ν), ((firstKeyDedup l).map Prod.fst).Nodup := by
  intro l
  induction l with
  | nil => exact List.nodup_nil
  | cons p rest ih =>
      obtain ⟨k, e⟩ := p
      rw [firstKeyDedup, List.map_cons, List.nodup_cons]
      constructor
      · intro hmem
        rcases List.mem_map.mp hmem with ⟨q, hq, hqk⟩
        have := List.of_mem_filter hq
        rw [hqk] at this
        simp at this
      · exact List.Nodup.sublist
          (List.Sublist.map Prod.fst (List.filter_sublist _)) ih

/-- C6: `iterate_endpoints` walks the MRO most specific first and yields
one endpoint per distinct attribute name: the key-tagged iteration equals
the first-occurrence dedup of the concatenated class bodies, its names
are distinct, and per-name resolution is the most specific binding (the
first lookup in the concatenation).  In the concrete
`L1EndpointsWithRoomSensor` registry, the overriding fine-tuning
definition (wire ID S_102_85) is the only endpoint of that name yielded
and the parent's S_134_85 version never appears. -/
theorem c6_iterate_override :
    (∀ mro : List (List (String × AnyEndpoint)),
      iterEndpointsAux [] mro = firstKeyDedup mro.flatten ∧
      ((iterEndpointsAux [] mro).map Prod.fst).Nodup ∧
      (∀ k, dictLookup k (iterEndpointsAux [] mro) = dictLookup k mro.flatten)) ∧
    (iterate_endpoints l1RoomSensorRegistry.mro).filter
        (fun e => decide (e.epName = "l1_room_temperature_fine_tuning")) =
      [.floatControl ⟨"l1_room_temperature_fine_tuning", some .celsius,
        "S_102_85", "@_S_102_85", .ofTenths (-40), .ofTenths 40⟩] ∧
    (AnyEndpoint.floatControl ⟨"l1_room_temperature_fine_tuning", some .celsius,
        "S_134_85", "@_S_134_85", .ofTenths (-40), .ofTenths 40⟩ ∉
      iterate_endpoints l1RoomSensorRegistry.mro) := by
  refine ⟨?_, by decide, by decide⟩
  intro mro
  have h1 : iterEndpointsAux [] mro = firstKeyDedup mro.flatten := by
    rw [iterAux_eq_scan, scanDedup_eq_dedup]
    refine List.filter_eq_self.mpr ?_
    intro p _
    simp
  refine ⟨h1, ?_, ?_⟩
  · rw [h1]
    exact keys_firstKeyDedup_nodup _
  · intro k
    rw [h1]
    exact lookup_firstKeyDedup k _

theorem startsWithList_refl : ∀ l : List Char, startsWithList l l = true := by
  intro l
  induction l with
  | nil => rfl
  | cons c cs ih => simp [startsWithList, ih]

theorem listHas_suffix :
    ∀ (pre needle : List Char), listHas needle (pre ++ needle) = true := by
  intro pre
  induction pre with
  | nil =>
      intro needle
      rcases needle with _ | ⟨c, r⟩
      · rfl
      · simp [listHas, startsWithList_refl]
  | cons c cs ih =>
      intro needle
      simp [listHas, ih needle]

theorem hasDupRegistry_eq_false_iff :
    ∀ rs : List Registry, hasDupRegistry rs = false ↔ rs.Nodup := by
  intro rs
  induction rs with
  | nil => simp [hasDupRegistry]
  | cons r rest ih =>
      simp only [hasDupRegistry, Bool.or_eq_false_iff, List.nodup_cons, ih,
        List.any_eq_false]
      constructor
      · rintro ⟨h1, h2⟩
        refine ⟨fun hmem => ?_, h2⟩
        have := h1 r hmem
        simp at this
      · rintro ⟨h1, h2⟩
        refine ⟨fun x hx => ?_, h2⟩
        simp only [decide_eq_true_eq]
        intro hxr
        exact h1 (hxr ▸ hx)

theorem findConflictId_eq_none_iff :
    ∀ rs : List Registry, findConflictId rs = none ↔
      rs.Pairwise (fun a b =>
        ∀ i ∈ registrySensorIds a, i ∉ registrySensorIds b) := by
  intro rs
  induction rs with
  | nil => simp [findConflictId]
  | cons r rest ih =>
      simp only [findConflictId]
      rcases hf : (registrySensorIds r).find?
          (fun i => rest.any (fun r2 => (registrySensorIds r2).contains i))
        with _ | i
      · rw [List.pairwise_cons]
        have hnone := List.find?_eq_none.mp hf
        constructor
        · intro hrest
          refine ⟨fun b hb i hi hib => ?_, ih.mp hrest⟩
          refine hnone i hi ?_
          refine List.any_eq_true.mpr ⟨b, hb, ?_⟩
          exact List.elem_iff.mpr hib
        · rintro ⟨_, hrest⟩
          exact ih.mpr hrest
      · constructor
        · intro h
          exact Option.noConfusion h
        · intro hpw
          exfalso
          have hi : i ∈ registrySensorIds r := List.mem_of_find?_eq_some hf
          have hpred := List.find?_some hf
          rcases List.any_eq_true.mp hpred with ⟨b, hb, hbi⟩
          have hib : i ∈ registrySensorIds b := List.elem_iff.mp hbi
          have := (List.pairwise_cons.mp hpw).1 b hb i hi
          exact this hib

/-- C7: the modelled `OumanRegistrySet` construction succeeds exactly when
no registry repeats and sensor ID sets are pairwise disjoint; a repeated
registry fails with the duplicate-registry ValueError; with distinct
registries, a shared sensor ID fails with the conflicting-ID ValueError
whose message mentions that ID. -/
theorem c7_registry_set_validation (rs : List Registry) :
    ((mkRegistrySet rs = .ok ⟨rs⟩) ↔
      (rs.Nodup ∧ rs.Pairwise (fun a b =>
        ∀ i ∈ registrySensorIds a, i ∉ registrySensorIds b))) ∧
    (¬ rs.Nodup → mkRegistrySet rs = .error (.valueError dupRegistryMsg)) ∧
    (∀ i, rs.Nodup → findConflictId rs = some i →
      mkRegistrySet rs = .error (.valueError (conflictMsg i)) ∧
      strMentions i (conflictMsg i) = true) := by
  have hmention : ∀ i : String, strMentions i (conflictMsg i) = true := by
    intro i
    show listHas i.toList (conflictMsg i).toList = true
    have hsplit : (conflictMsg i).toList =
        "Conflicting endpoint IDs in registry set: ".toList ++ i.toList :=
      String.data_append "Conflicting endpoint IDs in registry set: " i
    rw [hsplit]
    exact listHas_suffix _ _
  refine ⟨?_, ?_, ?_⟩
  · unfold mkRegistrySet
    rcases hd : hasDupRegistry rs with _ | _
    · rw [if_neg (fun h : (false = true) => Bool.noConfusion h)]
      rcases hfc : findConflictId rs with _ | i
      · exact iff_of_true rfl
          ⟨(hasDupRegistry_eq_false_iff rs).mp hd,
            (findConflictId_eq_none_iff rs).mp hfc⟩
      · refine iff_of_false (fun h => Except.noConfusion h) ?_
        rintro ⟨_, hpw⟩
        rw [(findConflictId_eq_none_iff rs).mpr hpw] at hfc
        exact Option.noConfusion hfc
    · rw [if_pos rfl]
      refine iff_of_false (fun h => Except.noConfusion h) ?_
      rintro ⟨hn, _⟩
      rw [(hasDupRegistry_eq_false_iff rs).mpr hn] at hd
      exact Bool.noConfusion hd
  · intro hn
    have hd : hasDupRegistry rs = true := by
      rcases hb : hasDupRegistry rs with _ | _
      · exact absurd ((hasDupRegistry_eq_false_iff rs).mp hb) hn
      · rfl
    unfold mkRegistrySet
    rw [if_pos hd]
  · intro i hn hfc
    have hd : hasDupRegistry rs = false := (hasDupRegistry_eq_false_iff rs).mpr hn
    have hnd : ¬ (hasDupRegistry rs = true) := fun h => by
      rw [hd] at h
      exact Bool.noConfusion h
    unfold mkRegistrySet
    rw [if_neg hnd, hfc]
    exact ⟨rfl, hmention i⟩

/-- C7 witness: the theorem applied to the concrete registries: a valid
composition, a duplicated registry, and the overlapping plain/room-sensor
L1 pair (conflicting ID S_59_85). -/
theorem c7_witness :
    (mkRegistrySet [systemRegistry, l1Registry] =
      .ok ⟨[systemRegistry, l1Registry]⟩) ∧
    (mkRegistrySet [systemRegistry, systemRegistry] =
      .error (.valueError dupRegistryMsg)) ∧
    (mkRegistrySet [l1Registry, l1RoomSensorRegistry] =
      .error (.valueError (conflictMsg "S_59_85")) ∧
      strMentions "S_59_85" (conflictMsg "S_59_85") = true) :=
  ⟨(c7_registry_set_validation [systemRegistry, l1Registry]).1.mpr
      ⟨by decide, by decide⟩,
    (c7_registry_set_validation [systemRegistry, systemRegistry]).2.1
      (by decide),
    (c7_registry_set_validation [l1Registry, l1RoomSensorRegistry]).2.2
      "S_59_85" (by decide) (by decide)⟩

end Ouman
